import Mathlib

set_option maxHeartbeats 1000000

/-!
Verification of the customers-backend core: a shallow embedding of the
customer/address business-rule and query layer
(`src/apps/repositories/customer.repository.mjs`,
`src/apps/usecases/customer.usecase.mjs`, `src/utils/pagination.utils.mjs`,
`src/utils/search.utils.mjs`) together with theorems about the spec's claims.

Modelling conventions:
* The SQLite store (two tables, `customers` and `addresses`) is a `Db`
  structure holding the two row lists plus the AUTOINCREMENT counters.
* `datetime('now')` timestamps are modelled by a strictly increasing logical
  clock (`Db.clock`); only `createdAt` is observable through the modelled
  queries (the default `ORDER BY createdAt`), `updatedAt` is never read back
  by the modelled logic and is omitted.
* Each better-sqlite3 transaction is one Lean function on `Db`; a thrown
  statement error rolls the transaction back, which is modelled by returning
  the input `Db` unchanged.
* JavaScript `undefined`/`null` column values are modelled as `Option`.
  A named SQL parameter whose key is absent from the bound object makes
  better-sqlite3's `run` throw `RangeError: Missing named parameter ...`
  before the statement executes (`JsField` below); a present `null` binds
  SQL NULL.
* JavaScript truthiness of the dynamically typed inputs that reach the layer
  unvalidated is modelled by `JsVal` / `JsBool` below.
-/

/-- A JavaScript value as it can arrive in an unvalidated request body. -/
inductive JsVal where
  | vbool : Bool → JsVal
  | vstr : String → JsVal
  | vnum : Int → JsVal
  | vnull : JsVal
  | vundef : JsVal
deriving DecidableEq, Repr

/-- JavaScript `Boolean(v)` coercion (truthiness). -/
def JsVal.toBoolean : JsVal → Bool
  | .vbool b => b
  | .vstr s => decide (s ≠ "")
  | .vnum n => decide (n ≠ 0)
  | .vnull => false
  | .vundef => false

/-- The observable behaviour of a JavaScript value under the two tests the
repository applies to `patch.isPrimary`: strict equality `=== true` and
truthiness `v ? 1 : 0`.  `jtruthy` stands for any truthy value that is not
the boolean `true` (for example the number `1` or the string `"true"`). -/
inductive JsBool where
  | jtrue : JsBool
  | jfalsy : JsBool
  | jtruthy : JsBool
deriving DecidableEq, Repr

/-- Truthiness of the value. -/
def JsBool.truthy : JsBool → Bool
  | .jtrue => true
  | .jfalsy => false
  | .jtruthy => true

/-- Strict equality `=== true`. -/
def JsBool.strictTrue : JsBool → Bool
  | .jtrue => true
  | _ => false

/-- An optional JavaScript object property that a prepared statement binds
by name: an `absent` (`undefined`) key makes better-sqlite3's `run` throw
`RangeError: Missing named parameter ...`, while a present key binds `null`
or the string. -/
inductive JsField where
  | absent : JsField
  | null : JsField
  | str : String → JsField
deriving DecidableEq, Repr

/-- Whether the key is present, so that the statement can bind it. -/
def JsField.binds : JsField → Bool
  | .absent => false
  | .null => true
  | .str _ => true

/-- The column value a successful binding stores (SQL NULL for `null`). -/
def JsField.toCol : JsField → Option String
  | .absent => none
  | .null => none
  | .str s => some s

/-- JavaScript `v || d` for an optional string `v`: the default is used when
`v` is `undefined` or the empty string. -/
def jsOrDefault (v : Option String) (d : String) : String :=
  match v with
  | some s => if s = "" then d else s
  | none => d

-- ---------- src/utils/search.utils.mjs ----------

/-- `escapeLike` from `src/utils/search.utils.mjs`:
`String(s).replace(/[%_]/g, '\\$&')` prepends a backslash to every `%`
and `_` of the input. -/
def escapeLike (s : String) : String :=
  String.mk (s.data.foldr
    (fun c acc => if c = '%' || c = '_' then '\\' :: c :: acc else c :: acc) [])

/-- SQLite `LIKE` matching, fuelled so that it is structural (every step
consumes pattern or subject, so `pat.length + s.length + 1` fuel always
suffices): `%` matches any sequence, `_` any single character, every other
pattern character matches case-insensitively (ASCII).  The use case's query
has no `ESCAPE` clause, so a backslash in the pattern is an ordinary
character. -/
def likeMatchFuel : Nat → List Char → List Char → Bool
  | 0, _, _ => false
  | _ + 1, [], [] => true
  | _ + 1, [], _ :: _ => false
  | fuel + 1, '%' :: ps, s =>
      likeMatchFuel fuel ps s ||
        (match s with
         | [] => false
         | _ :: s' => likeMatchFuel fuel ('%' :: ps) s')
  | _ + 1, '_' :: _, [] => false
  | fuel + 1, '_' :: ps, _ :: s => likeMatchFuel fuel ps s
  | _ + 1, _ :: _, [] => false
  | fuel + 1, p :: ps, c :: s => (p.toLower == c.toLower) && likeMatchFuel fuel ps s

/-- SQLite `pattern LIKE subject` matching. -/
def likeMatch (pat s : List Char) : Bool :=
  likeMatchFuel (pat.length + s.length + 1) pat s

-- ---------- src/utils/pagination.utils.mjs ----------

/-- A JavaScript number that may be `NaN`; `none` is `NaN`. -/
abbrev JsNum := Option Int

/-- JavaScript `parseInt(s, 10)`: skip leading whitespace, optional sign,
then the longest decimal-digit prefix; `NaN` (`none`) when no digit is
consumed. -/
def jsParseInt (s : String) : JsNum :=
  let cs := s.data.dropWhile (fun c => c = ' ' || c = '\t' || c = '\n' || c = '\r')
  let signRest : Int × List Char :=
    match cs with
    | '-' :: r => (-1, r)
    | '+' :: r => (1, r)
    | r => (1, r)
  let ds := (signRest.2.takeWhile (fun c => '0' ≤ c && c ≤ '9')).map
    (fun c => c.toNat - '0'.toNat)
  if ds.isEmpty then none
  else some (signRest.1 * (ds.foldl (fun acc d => acc * 10 + d) 0 : Nat))

/-- `Math.max(a, v)` with `NaN` propagation. -/
def jsMax (a : Int) (v : JsNum) : JsNum := v.map (fun x => max a x)

/-- `Math.min(a, v)` with `NaN` propagation. -/
def jsMin (a : Int) (v : JsNum) : JsNum := v.map (fun x => min a x)

/-- Result of `parsePagination`. -/
structure Pagination where
  page : JsNum
  limit : JsNum
  offset : JsNum
deriving DecidableEq, Repr

/-- `parsePagination` from `src/utils/pagination.utils.mjs`:
`page = Math.max(1, parseInt(query.page || '1', 10))`,
`limit = Math.min(100, Math.max(1, parseInt(query.limit || '10', 10)))`,
`offset = (page - 1) * limit`. -/
def parsePagination (qpage qlimit : Option String) : Pagination :=
  let page := jsMax 1 (jsParseInt (jsOrDefault qpage "1"))
  let limit := jsMin 100 (jsMax 1 (jsParseInt (jsOrDefault qlimit "10")))
  let offset : JsNum :=
    match page, limit with
    | some p, some l => some ((p - 1) * l)
    | _, _ => none
  ⟨page, limit, offset⟩

-- ---------- Data model (src/apps/models/customer.model.mjs) ----------

/-- A row of the `customers` table. -/
structure Customer where
  id : Nat
  firstName : String
  lastName : String
  phone : String
  email : Option String
  accountType : String
  hasOnlyOneAddress : Bool
  createdAt : Nat
deriving DecidableEq, Repr

/-- A row of the `addresses` table. -/
structure Address where
  id : Nat
  customerId : Nat
  line1 : String
  line2 : Option String
  city : String
  state : String
  country : String
  pincode : String
  isPrimary : Bool
  status : String
deriving DecidableEq, Repr

/-- The SQLite database: both tables plus the AUTOINCREMENT counters and the
logical clock standing in for `datetime('now')`. -/
structure Db where
  customers : List Customer
  addresses : List Address
  nextCustomerId : Nat
  nextAddressId : Nat
  clock : Nat
deriving DecidableEq, Repr

/-- `SELECT * FROM addresses WHERE customerId = ?` in table order. -/
def addrsOf (db : Db) (cid : Nat) : List Address :=
  db.addresses.filter (fun a => a.customerId == cid)

/-- `SELECT COUNT(*) as c FROM addresses WHERE customerId = ?`. -/
def addrCount (db : Db) (cid : Nat) : Nat := (addrsOf db cid).length

/-- Whether a `customers` row with this id exists. -/
def customerExists (db : Db) (cid : Nat) : Bool :=
  db.customers.any (fun c => c.id == cid)

/-- `SELECT * FROM customers WHERE id = ?` (first matching row). -/
def findCustomer (db : Db) (cid : Nat) : Option Customer :=
  db.customers.find? (fun c => c.id == cid)

-- `ORDER BY isPrimary DESC, id ASC` on addresses.

/-- Sort key: primary rows (`isPrimary DESC` on the 0/1 column) first. -/
def primKey (a : Address) : Nat := if a.isPrimary then 0 else 1

/-- The `ORDER BY isPrimary DESC, id ASC` comparison, as a boolean. -/
def addrLeB (a b : Address) : Bool :=
  decide (primKey a < primKey b) ||
    (primKey a == primKey b && decide (a.id ≤ b.id))

/-- The `ORDER BY isPrimary DESC, id ASC` comparison. -/
def addrLe (a b : Address) : Prop := addrLeB a b = true

instance : DecidableRel addrLe := fun a b => inferInstanceAs (Decidable (addrLeB a b = true))

/-- Hydration order of a customer's addresses. -/
def sortAddresses (l : List Address) : List Address := List.insertionSort addrLe l

/-- A customer row hydrated with its sorted addresses, as returned by the
repository's read paths. -/
structure HydratedCustomer where
  customer : Customer
  addresses : List Address
deriving DecidableEq, Repr

-- ---------- CustomerRepository (src/apps/repositories/customer.repository.mjs) ----------

/-- `CustomerRepository.getCustomerById`: the customer row, or `null`,
hydrated with its addresses `ORDER BY isPrimary DESC, id ASC`. -/
def Repo.getCustomerById (db : Db) (cid : Nat) : Option HydratedCustomer :=
  match findCustomer db cid with
  | none => none
  | some c => some ⟨c, sortAddresses (addrsOf db cid)⟩

/-- `UPDATE customers SET hasOnlyOneAddress = ?, updatedAt = datetime('now')
WHERE id = ?`. -/
def setFlag (db : Db) (cid : Nat) (b : Bool) : Db :=
  let cs := db.customers.map
    (fun c => if c.id == cid then { c with hasOnlyOneAddress := b } else c)
  { db with customers := cs }

/-- `UPDATE addresses SET isPrimary = 0 WHERE customerId = ?`. -/
def clearPrimary (db : Db) (cid : Nat) : Db :=
  let as_ := db.addresses.map
    (fun a => if a.customerId == cid then { a with isPrimary := false } else a)
  { db with addresses := as_ }

/-- The address object the repository's `addAddress` binds.  `line1`,
`city`, `state`, `country`, `pincode` are modelled as present strings (the
validated path always supplies them); the optional `line2` key may be
absent, in which case binding `@line2` throws.  `isPrimary` is the
truthiness of `address.isPrimary`, `status` falls back to `'active'`
through `address.status || 'active'` (both keys are set explicitly in the
bound object, so they always bind). -/
structure AddressInput where
  line1 : String
  line2 : JsField
  city : String
  state : String
  country : String
  pincode : String
  isPrimary : Bool
  status : Option String
deriving DecidableEq, Repr

/-- The `addresses`-table effect of `CustomerRepository.addAddress` once
every named parameter of the INSERT binds (`Repo.addAddress` raises the
binding error first, so this is only reached with `line2` present): when
the new address is primary, first clear `isPrimary` on the customer's other
addresses, then insert the row. -/
def addAddressRows (db : Db) (cid : Nat) (a : AddressInput) : Db :=
  let db1 := if a.isPrimary then clearPrimary db cid else db
  let newRow : Address :=
    ⟨db1.nextAddressId, cid, a.line1, a.line2.toCol, a.city, a.state,
      a.country, a.pincode, a.isPrimary, jsOrDefault a.status "active"⟩
  { db1 with
    addresses := db1.addresses ++ [newRow],
    nextAddressId := db1.nextAddressId + 1 }

/-- `CustomerRepository.addAddress` (one transaction).  An address object
without a `line2` key makes binding the INSERT's named parameters throw
`RangeError: Missing named parameter "line2"`; the transaction rolls back
and the store is unchanged.  Otherwise, when the new address is primary,
first clear `isPrimary` on the customer's other addresses; insert the row;
recompute `hasOnlyOneAddress` from the post-insert count; return the
hydrated customer.  An insert for a missing customer violates the foreign
key, the transaction rolls back and the store is unchanged. -/
def Repo.addAddress (db : Db) (cid : Nat) (a : AddressInput) :
    Db × Except String (Option HydratedCustomer) :=
  if a.line2.binds = false then
    (db, .error "Missing named parameter \"line2\"")
  else if customerExists db cid then
    let db2 := addAddressRows db cid a
    let db3 := setFlag db2 cid (addrCount db2 cid == 1)
    (db3, .ok (Repo.getCustomerById db3 cid))
  else (db, .error "FOREIGN KEY constraint failed")

/-- The patch object the repository's `updateAddress` iterates over;
`none` is an absent (`undefined`) key, which is skipped.  `isPrimary` is a
raw JavaScript value, observed through `=== true` and truthiness. -/
structure AddressPatch where
  line1 : Option String
  line2 : Option (Option String)
  city : Option String
  state : Option String
  country : Option String
  pincode : Option String
  isPrimary : Option JsBool
  status : Option String
deriving DecidableEq, Repr

/-- The all-`none` patch. -/
def AddressPatch.empty : AddressPatch := ⟨none, none, none, none, none, none, none, none⟩

/-- Whether `patch.isPrimary === true`. -/
def AddressPatch.primStrictTrue (p : AddressPatch) : Bool :=
  match p.isPrimary with
  | some v => v.strictTrue
  | none => false

/-- The `UPDATE addresses SET k = @k, ...` assignment list applied to one
row: only supplied fields are written, `isPrimary` is stored as the
truthiness bit `patch[k] ? 1 : 0`. -/
def applyPatch (p : AddressPatch) (a : Address) : Address :=
  { a with
    line1 := p.line1.getD a.line1
    line2 := p.line2.getD a.line2
    city := p.city.getD a.city
    state := p.state.getD a.state
    country := p.country.getD a.country
    pincode := p.pincode.getD a.pincode
    isPrimary := match p.isPrimary with
      | some v => v.truthy
      | none => a.isPrimary
    status := p.status.getD a.status }

/-- The `addresses`-table effect of `CustomerRepository.updateAddress`:
when `patch.isPrimary === true`, clear `isPrimary` on the customer's
addresses; then apply the supplied fields to the row scoped by
`(addressId, customerId)`. -/
def updateAddressRows (db : Db) (cid aid : Nat) (p : AddressPatch) : Db :=
  let db1 := if p.primStrictTrue then clearPrimary db cid else db
  let as_ := db1.addresses.map
    (fun a => if a.id == aid && a.customerId == cid then applyPatch p a else a)
  { db1 with addresses := as_ }

/-- `CustomerRepository.updateAddress` (one transaction): when
`patch.isPrimary === true`, clear `isPrimary` on the customer's addresses;
apply the supplied fields to the row scoped by `(addressId, customerId)`;
recompute `hasOnlyOneAddress`; return the hydrated customer (`null` when the
customer does not exist). -/
def Repo.updateAddress (db : Db) (cid aid : Nat) (p : AddressPatch) :
    Db × Option HydratedCustomer :=
  let db2 := updateAddressRows db cid aid p
  let db3 := setFlag db2 cid (addrCount db2 cid == 1)
  (db3, Repo.getCustomerById db3 cid)

/-- The `addresses`-table effect of `CustomerRepository.deleteAddress`:
delete the row scoped by `(addressId, customerId)`. -/
def deleteAddressRows (db : Db) (cid aid : Nat) : Db :=
  let as_ := db.addresses.filter (fun a => !(a.id == aid && a.customerId == cid))
  { db with addresses := as_ }

/-- `CustomerRepository.deleteAddress` (one transaction): delete the row
scoped by `(addressId, customerId)`; recompute `hasOnlyOneAddress`; return
the hydrated customer (`null` when the customer does not exist). -/
def Repo.deleteAddress (db : Db) (cid aid : Nat) :
    Db × Option HydratedCustomer :=
  let db1 := deleteAddressRows db cid aid
  let db2 := setFlag db1 cid (addrCount db1 cid == 1)
  (db2, Repo.getCustomerById db2 cid)

/-- An error thrown by the core, with its numeric status hint and, for
validation failures, the collected field messages. -/
structure ApiError where
  status : Nat
  message : String
  details : List String
deriving DecidableEq, Repr

deriving instance DecidableEq for Except

/-- `CustomerRepository.markOnlyOneAddress`: reject (status 400) a `true`
request unless exactly one address exists and a `false` request unless more
than one exists; otherwise write the flag and return the hydrated customer.
The throw happens before the write, so on failure the store is unchanged. -/
def Repo.markOnlyOneAddress (db : Db) (cid : Nat) (value : Bool) :
    Db × Except ApiError (Option HydratedCustomer) :=
  let cnt := addrCount db cid
  if value = true ∧ cnt ≠ 1 then
    (db, .error ⟨400, "Cannot mark as Only One Address unless exactly one exists", []⟩)
  else if value = false ∧ cnt ≤ 1 then
    (db, .error ⟨400, "Cannot unmark when there are not multiple addresses", []⟩)
  else
    let db1 := setFlag db cid value
    (db1, .ok (Repo.getCustomerById db1 cid))

/-- `CustomerRepository.existsByPhone`. -/
def Repo.existsByPhone (db : Db) (phone : String) : Bool :=
  db.customers.any (fun c => c.phone == phone)

/-- `CustomerRepository.existsByEmail`: `false` for an absent or empty
email, otherwise an equality probe (a stored SQL NULL never equals). -/
def Repo.existsByEmail (db : Db) (email : Option String) : Bool :=
  match email with
  | none => false
  | some s => if s = "" then false else db.customers.any (fun c => c.email == some s)

/-- The data object the use case hands to the repository's
`createCustomer` insert (`{ ...value, hasOnlyOneAddress }`).  Joi leaves an
absent optional `email` key absent, so `email` may fail to bind. -/
structure CustomerData where
  firstName : String
  lastName : String
  phone : String
  email : JsField
  accountType : String
  hasOnlyOneAddress : Bool
deriving DecidableEq, Repr

/-- `CustomerRepository.createCustomer`: a data object without an `email`
key makes binding `@email` throw `RangeError: Missing named parameter
"email"` before the statement executes; the UNIQUE index on `phone` makes
the insert throw on a duplicate.  Either throw leaves the store unchanged.
Otherwise insert the row and return the hydrated new customer. -/
def Repo.createCustomer (db : Db) (d : CustomerData) :
    Db × Except String (Option HydratedCustomer) :=
  if d.email.binds = false then
    (db, .error "Missing named parameter \"email\"")
  else if Repo.existsByPhone db d.phone then
    (db, .error "UNIQUE constraint failed: customers.phone")
  else
    let c : Customer :=
      ⟨db.nextCustomerId, d.firstName, d.lastName, d.phone, d.email.toCol,
        d.accountType, d.hasOnlyOneAddress, db.clock⟩
    let db1 := { db with
      customers := db.customers ++ [c],
      nextCustomerId := db.nextCustomerId + 1,
      clock := db.clock + 1 }
    (db1, .ok (Repo.getCustomerById db1 c.id))

example :
    (Repo.addAddress ⟨[⟨1, "A", "B", "123456", none, "standard", false, 0⟩], [], 2, 1, 1⟩
      1 ⟨"L1", JsField.null, "C", "S", "India", "500001", true, none⟩).1.addresses =
      [⟨1, 1, "L1", none, "C", "S", "India", "500001", true, "active"⟩] := by decide

example :
    (Repo.addAddress ⟨[⟨1, "A", "B", "123456", none, "standard", false, 0⟩], [], 2, 1, 1⟩
      1 ⟨"L1", JsField.absent, "C", "S", "India", "500001", true, none⟩) =
      (⟨[⟨1, "A", "B", "123456", none, "standard", false, 0⟩], [], 2, 1, 1⟩,
        .error "Missing named parameter \"line2\"") := by decide

example :
    (Repo.markOnlyOneAddress ⟨[⟨1, "A", "B", "123456", none, "standard", false, 0⟩], [], 2, 1, 1⟩
      1 true).2 = .error ⟨400, "Cannot mark as Only One Address unless exactly one exists", []⟩ := by
  decide

-- ---------- CustomerUsecase (src/apps/usecases/customer.usecase.mjs) ----------

/-- A nested address object of a creation payload, before validation; `none`
is an absent key. -/
structure AddressRaw where
  line1 : Option String
  line2 : Option String
  city : Option String
  state : Option String
  country : Option String
  pincode : Option String
  isPrimary : Option Bool
  status : Option String
deriving DecidableEq, Repr

/-- A creation payload before validation; `none` is an absent key. -/
structure CreateInput where
  firstName : Option String
  lastName : Option String
  phone : Option String
  email : Option String
  accountType : Option String
  addresses : Option (List AddressRaw)
deriving DecidableEq, Repr

/-- A nested address after Joi validation, with the `country` and `status`
defaults applied. -/
structure AddressValue where
  line1 : String
  line2 : Option String
  city : String
  state : String
  country : String
  pincode : String
  isPrimary : Option Bool
  status : String
deriving DecidableEq, Repr

/-- A creation payload after Joi validation, with `firstName`, `lastName`
and `phone` trimmed and the `accountType` default applied. -/
structure CreateValue where
  firstName : String
  lastName : String
  phone : String
  email : Option String
  accountType : String
  addresses : Option (List AddressValue)
deriving DecidableEq, Repr

/-- A JavaScript whitespace character (the ones relevant to the modelled
inputs). -/
def isSpaceChar (c : Char) : Bool :=
  c = ' ' || c = '\t' || c = '\n' || c = '\r'

/-- Trimming as performed by Joi's `trim()` conversion, computed on the
character list so that it reduces in the kernel. -/
def jsTrim (s : String) : String :=
  String.mk (((s.data.dropWhile isSpaceChar).reverse.dropWhile isSpaceChar).reverse)

/-- Joi's message for a missing required key. -/
def msgRequired (name : String) : String := "\"" ++ name ++ "\" is required"

/-- Joi's message for an empty required string. -/
def msgEmpty (name : String) : String := "\"" ++ name ++ "\" is not allowed to be empty"

/-- `Joi.string().trim().required()`: missing and (after trimming) empty
values are violations; the validated value is the trimmed string. -/
def reqTrimmed (name : String) (v : Option String) : List String × String :=
  match v with
  | none => ([msgRequired name], "")
  | some s =>
      let t := jsTrim s
      if t = "" then ([msgEmpty name], "") else ([], t)

/-- `Joi.string().required()` (no trim conversion): missing and empty
values are violations. -/
def reqPlain (name : String) (v : Option String) : List String × String :=
  match v with
  | none => ([msgRequired name], "")
  | some s => if s = "" then ([msgEmpty name], "") else ([], s)

/-- Abstraction of Joi's `string().email()` format check: one `@` splitting
a nonempty local part from a dotted domain of nonempty labels.  No claim
depends on the exact email grammar. -/
def isEmailLike (s : String) : Bool :=
  let cs := s.data
  let l := cs.takeWhile (fun c => c ≠ '@')
  let d := (cs.dropWhile (fun c => c ≠ '@')).tail
  (cs.filter (fun c => c = '@')).length == 1 &&
    decide (l ≠ []) && decide (d ≠ []) && d.any (fun c => c = '.') &&
    decide (d.head? ≠ some '.') && decide (d.getLast? ≠ some '.')

/-- Validation of one nested address against the `addresses` item schema of
`createSchema` (messages collected, defaults applied). -/
def validateAddress (a : AddressRaw) : List String × AddressValue :=
  let r1 := reqPlain "line1" a.line1
  let r2 := reqPlain "city" a.city
  let r3 := reqPlain "state" a.state
  let r4 := reqPlain "pincode" a.pincode
  let e5 := match a.status with
    | some s =>
        if s = "active" ∨ s = "inactive" then []
        else ["\"status\" must be one of [active, inactive]"]
    | none => []
  (r1.1 ++ r2.1 ++ r3.1 ++ r4.1 ++ e5,
    ⟨r1.2, a.line2, r2.2, r3.2, a.country.getD "India", r4.2, a.isPrimary,
      a.status.getD "active"⟩)

/-- The `phone` minimum-length violation (`min(6)`, after trimming). -/
def phoneMinErrors (p : CreateInput) : List String :=
  if (reqTrimmed "phone" p.phone).1.isEmpty ∧
      (reqTrimmed "phone" p.phone).2.length < 6 then
    ["\"phone\" length must be at least 6 characters long"]
  else []

/-- The `email` format violation (`string().email().allow('', null)`). -/
def emailErrors (p : CreateInput) : List String :=
  match p.email with
  | some s =>
      if s = "" then [] else if isEmailLike s then []
      else ["\"email\" must be a valid email"]
  | none => []

/-- The `accountType` check with its `standard` default. -/
def accountTypeCheck (p : CreateInput) : List String × String :=
  match p.accountType with
  | some s =>
      if s = "standard" ∨ s = "premium" ∨ s = "enterprise" then ([], s)
      else (["\"accountType\" must be one of [standard, premium, enterprise]"], s)
  | none => ([], "standard")

/-- The collected violations of the nested `addresses` items. -/
def addressesErrors (p : CreateInput) : List String :=
  match p.addresses with
  | none => []
  | some l => ((l.map validateAddress).map Prod.fst).flatten

/-- The validated nested `addresses` value. -/
def addressesValue (p : CreateInput) : Option (List AddressValue) :=
  match p.addresses with
  | none => none
  | some l => some ((l.map validateAddress).map Prod.snd)

/-- Every violation `createSchema.validate(payload, { abortEarly: false })`
collects, in schema-key order. -/
def createErrors (p : CreateInput) : List String :=
  (reqTrimmed "firstName" p.firstName).1 ++ (reqTrimmed "lastName" p.lastName).1 ++
    (reqTrimmed "phone" p.phone).1 ++ phoneMinErrors p ++ emailErrors p ++
    (accountTypeCheck p).1 ++ addressesErrors p

/-- The converted value (trimmed strings, defaults applied). -/
def createValue (p : CreateInput) : CreateValue :=
  ⟨(reqTrimmed "firstName" p.firstName).2, (reqTrimmed "lastName" p.lastName).2,
    (reqTrimmed "phone" p.phone).2, p.email, (accountTypeCheck p).2,
    addressesValue p⟩

/-- `createSchema.validate(payload, { abortEarly: false })`: every
violation is collected; on success the converted value (trimmed strings,
defaults) is returned. -/
def validateCreate (p : CreateInput) : Except (List String) CreateValue :=
  if (createErrors p).isEmpty then .ok (createValue p)
  else .error (createErrors p)

/-- JavaScript truthiness of `value.email`. -/
def emailTruthy : Option String → Bool
  | some s => decide (s ≠ "")
  | none => false

/-- The addresses of a validated payload that request `isPrimary`
(`value.addresses.filter(a => a.isPrimary)`). -/
def primariesRequested (v : CreateValue) : Nat :=
  match v.addresses with
  | some l => (l.filter (fun a => a.isPrimary.getD false)).length
  | none => 0

/-- A validated optional string as the raw object property the repository
binds: Joi leaves an absent optional key absent. -/
def jsFieldOf : Option String → JsField
  | none => .absent
  | some s => .str s

/-- The address object the use case hands to `addAddress` for a validated
nested address (absent keys stay absent). -/
def toAddressInput (a : AddressValue) : AddressInput :=
  ⟨a.line1, jsFieldOf a.line2, a.city, a.state, a.country, a.pincode,
    a.isPrimary.getD false, some a.status⟩

/-- The sequential `for (const addr of value.addresses) await
this.repo.addAddress(customer.id, addr)` loop of `createCustomer`: each
call is its own transaction; the first throw (such as the missing `line2`
binding) aborts the loop with the earlier inserts kept, carrying the thrown
message. -/
def insertAll (db : Db) (cid : Nat) : List AddressValue → Db × Option String
  | [] => (db, none)
  | a :: t =>
      let r := Repo.addAddress db cid (toAddressInput a)
      match r.2 with
      | .ok _ => insertAll r.1 cid t
      | .error m => (r.1, some m)

/-- The tail of `createCustomer` after the repository insert.  A repository
throw (the missing `email` binding, or the UNIQUE index — the phone probe
in the use case makes the latter unreachable) surfaces through the error
middleware as a 500 carrying the thrown message.  Otherwise the nested
addresses are inserted sequentially; a throw inside the loop surfaces the
same way, with the earlier inserts kept; on success the customer is
re-fetched.  The `.ok none` branch (the freshly inserted id not found) is
unreachable. -/
def finishCreate (created : Db × Except String (Option HydratedCustomer))
    (addrs : Option (List AddressValue)) :
    Db × Except ApiError (Option HydratedCustomer) :=
  match created.2 with
  | .error m => (created.1, .error ⟨500, m, []⟩)
  | .ok none => (created.1, .ok none)
  | .ok (some c) =>
    match addrs with
    | some l =>
        if l.length ≠ 0 then
          let r := insertAll created.1 c.customer.id l
          match r.2 with
          | some m => (r.1, .error ⟨500, m, []⟩)
          | none => (r.1, .ok (Repo.getCustomerById r.1 c.customer.id))
        else (created.1, .ok (some c))
    | none => (created.1, .ok (some c))

/-- `CustomerUsecase.createCustomer`: validate (collecting all messages);
reject a taken phone, then a taken email, then more than one requested
primary; insert the customer with the initial `hasOnlyOneAddress` guess;
sequentially add the nested addresses; return the hydrated customer.
Every rejection happens before the first write, so the failing paths leave
the store unchanged. -/
def Usecase.createCustomer (db : Db) (p : CreateInput) :
    Db × Except ApiError (Option HydratedCustomer) :=
  match validateCreate p with
  | .error msgs => (db, .error ⟨400, "Validation failed", msgs⟩)
  | .ok v =>
    if Repo.existsByPhone db v.phone then
      (db, .error ⟨409, "Phone already exists", []⟩)
    else if emailTruthy v.email && Repo.existsByEmail db v.email then
      (db, .error ⟨409, "Email already exists", []⟩)
    else if primariesRequested v > 1 then
      (db, .error ⟨400, "Only one address can be primary", []⟩)
    else
      let hasOne := match v.addresses with
        | some l => l.length == 1
        | none => false
      finishCreate (Repo.createCustomer db
        ⟨v.firstName, v.lastName, v.phone, jsFieldOf v.email, v.accountType,
          hasOne⟩)
        v.addresses

/-- The query object of `getCustomers`; every key is an optional string, as
delivered by the HTTP query-string parser. -/
structure ListQuery where
  q : Option String
  city : Option String
  state : Option String
  pincode : Option String
  onlyOneAddress : Option String
  sortBy : Option String
  sortDir : Option String
  page : Option String
  limit : Option String
deriving DecidableEq, Repr

/-- The `ListQuery` with every key absent. -/
def ListQuery.empty : ListQuery :=
  ⟨none, none, none, none, none, none, none, none, none⟩

/-- The `LIKE` pattern the use case binds for `q`:
`params.q = '%' + escapeLike(query.q) + '%'`. -/
def likePattern (q : String) : List Char :=
  '%' :: (escapeLike q).data ++ ['%']

/-- `column LIKE @q` on a nullable column: NULL never matches. -/
def fieldLike (pat : List Char) (v : Option String) : Bool :=
  match v with
  | some s => likeMatch pat s.data
  | none => false

/-- The free-text disjunction of the `q` filter, evaluated on one joined
row: the customer columns, or the joined address row's
`line1`/`city`/`state`/`pincode` (NULL on a customer with no address). -/
def qRowMatch (qs : String) (c : Customer) (ra : Option Address) : Bool :=
  let pat := likePattern qs
  fieldLike pat (some c.firstName) || fieldLike pat (some c.lastName) ||
    fieldLike pat (some c.phone) || fieldLike pat c.email ||
    fieldLike pat (ra.map (fun a => a.line1)) ||
    fieldLike pat (ra.map (fun a => a.city)) ||
    fieldLike pat (ra.map (fun a => a.state)) ||
    fieldLike pat (ra.map (fun a => a.pincode))

/-- The AND of the active filter predicates, evaluated on one row of
`customers LEFT JOIN addresses` (the address part is `none` for a customer
with no address).  A key that is absent or the empty string contributes no
predicate (`if (query.x)`). -/
def rowMatch (qr : ListQuery) (c : Customer) (ra : Option Address) : Bool :=
  (match qr.q with
   | some s => if s = "" then true else qRowMatch s c ra
   | none => true) &&
  (match qr.city with
   | some s => if s = "" then true else (ra.map (fun a => a.city)) == some s
   | none => true) &&
  (match qr.state with
   | some s => if s = "" then true else (ra.map (fun a => a.state)) == some s
   | none => true) &&
  (match qr.pincode with
   | some s => if s = "" then true else (ra.map (fun a => a.pincode)) == some s
   | none => true) &&
  (if qr.onlyOneAddress == some "true" then c.hasOnlyOneAddress
   else if qr.onlyOneAddress == some "false" then !c.hasOnlyOneAddress
   else true)

/-- Whether a customer survives the WHERE clause: some row of the LEFT JOIN
(an address row, or the NULL extension when it has none) satisfies every
active predicate. -/
def custMatches (db : Db) (qr : ListQuery) (c : Customer) : Bool :=
  let rows := addrsOf db c.id
  if rows.isEmpty then rowMatch qr c none
  else rows.any (fun a => rowMatch qr c (some a))

/-- `CustomerRepository.countCustomers` with the use case's filter:
`COUNT(DISTINCT customers.id)` over the join. -/
def Repo.countCustomers (db : Db) (qr : ListQuery) : Nat :=
  (db.customers.filter (custMatches db qr)).length

/-- `ORDER BY customers.createdAt <dir>` as a boolean comparison; only the
default `createdAt` sort key — the single key any claim exercises — is
modelled.  `desc` selects the direction. -/
def custLeB (desc : Bool) (a b : Customer) : Bool :=
  if desc then decide (b.createdAt ≤ a.createdAt) else decide (a.createdAt ≤ b.createdAt)

/-- `ORDER BY` as a relation, for `insertionSort`. -/
def custLe (desc : Bool) (a b : Customer) : Prop := custLeB desc a b = true

instance (d : Bool) : DecidableRel (custLe d) :=
  fun a b => inferInstanceAs (Decidable (custLeB d a b = true))

/-- `CustomerRepository.findCustomers` with the use case's filter: the
DISTINCT matching customers, sorted, windowed by `LIMIT`/`OFFSET`, each
hydrated with its sorted addresses.  A `NaN` bound binds as SQL NULL; that
branch is modelled as an unbounded window and is not exercised by any
theorem. -/
def Repo.findCustomers (db : Db) (qr : ListQuery) (desc : Bool)
    (limit offset : JsNum) : List HydratedCustomer :=
  let sorted := List.insertionSort (custLe desc) (db.customers.filter (custMatches db qr))
  let window := match offset, limit with
    | some o, some l => (sorted.drop o.toNat).take l.toNat
    | _, _ => sorted
  window.map (fun c => ⟨c, sortAddresses (addrsOf db c.id)⟩)

/-- The value `getCustomers` resolves with. -/
structure ListResult where
  items : List HydratedCustomer
  total : Nat
  page : JsNum
  limit : JsNum
  pages : Int
deriving DecidableEq, Repr

/-- The sort direction of `getCustomers`: `DESC` unless
`(query.sortDir || 'desc').toUpperCase() === 'ASC'`. -/
def Usecase.sortDesc (qr : ListQuery) : Bool :=
  !(String.mk ((jsOrDefault qr.sortDir "desc").data.map Char.toUpper) == "ASC")

/-- `CustomerUsecase.getCustomers`: parse pagination, fix the sort
direction, count the total through the same filter, fetch the page, and
return the metadata with `pages = Math.ceil(total / limit) || 0` (the float
ceiling is exact here; a `NaN` limit makes it `0`). -/
def Usecase.getCustomers (db : Db) (qr : ListQuery) : ListResult :=
  let pg := parsePagination qr.page qr.limit
  let desc := Usecase.sortDesc qr
  let total := Repo.countCustomers db qr
  let items := Repo.findCustomers db qr desc pg.limit pg.offset
  let pages : Int := match pg.limit with
    | some l => if total = 0 then 0 else ((total + l.toNat - 1) / l.toNat : Nat)
    | none => 0
  ⟨items, total, pg.page, pg.limit, pages⟩

/-- `CustomerUsecase.markOnlyOneAddress`: a thin delegation that coerces
the raw request value with `Boolean(value)` before calling the
repository. -/
def Usecase.markOnlyOneAddress (db : Db) (cid : Nat) (value : JsVal) :
    Db × Except ApiError (Option HydratedCustomer) :=
  Repo.markOnlyOneAddress db cid value.toBoolean

example :
    (Usecase.createCustomer ⟨[], [], 1, 1, 0⟩
        ⟨some "John", some "Doe", some "123456", some "", none, none⟩).2 =
      .ok (some ⟨⟨1, "John", "Doe", "123456", some "", "standard", false, 0⟩, []⟩) := by
  decide

example :
    (Usecase.createCustomer ⟨[], [], 1, 1, 0⟩
        ⟨some "John", some "Doe", some "123456", none, none, none⟩).2 =
      .error ⟨500, "Missing named parameter \"email\"", []⟩ := by
  decide

example :
    (Usecase.getCustomers ⟨[⟨1, "John", "Doe", "123456", none, "standard", false, 0⟩], [], 2, 1, 1⟩
        { ListQuery.empty with q := some "john" }).total = 1 := by decide

example :
    (Usecase.getCustomers ⟨[⟨1, "100% real", "Doe", "123456", none, "standard", false, 0⟩], [], 2, 1, 1⟩
        { ListQuery.empty with q := some "100%" }).total = 0 := by decide

-- ---------- Derived observations and shared lemmas ----------

/-- The stored `hasOnlyOneAddress` flag of a customer, when the row
exists. -/
def flagOf (db : Db) (cid : Nat) : Option Bool :=
  (findCustomer db cid).map (fun c => c.hasOnlyOneAddress)

/-- How many of a customer's stored addresses are primary. -/
def primCount (db : Db) (cid : Nat) : Nat :=
  ((addrsOf db cid).filter (fun a => a.isPrimary)).length

/-- Well-formedness the `addresses` schema guarantees: distinct surrogate
ids, all below the AUTOINCREMENT counter. -/
def AddrWF (db : Db) : Prop :=
  (db.addresses.map (fun a => a.id)).Nodup ∧
    ∀ a ∈ db.addresses, a.id < db.nextAddressId

/-- The primary-exclusivity invariant of the spec. -/
def PrimInv (db : Db) : Prop := ∀ cid, primCount db cid ≤ 1

theorem find?_setFlag_map (l : List Customer) (cid : Nat) (b : Bool) (x : Nat) :
    ((l.map (fun c => if c.id == cid then { c with hasOnlyOneAddress := b } else c)).find?
        (fun c => c.id == x)) =
      (l.find? (fun c => c.id == x)).map
        (fun c => if c.id == cid then { c with hasOnlyOneAddress := b } else c) := by
  rw [List.find?_map]
  have hpred : ((fun c : Customer => c.id == x) ∘
      fun c => if c.id == cid then { c with hasOnlyOneAddress := b } else c) =
      (fun c : Customer => c.id == x) := by
    funext c
    by_cases h : c.id = cid <;> simp [Function.comp, h]
  rw [hpred]

theorem customerExists_setFlag (db : Db) (cid : Nat) (b : Bool) (x : Nat) :
    customerExists (setFlag db cid b) x = customerExists db x := by
  simp only [customerExists, setFlag, List.any_map]
  congr 1
  funext c
  by_cases h : c.id = cid <;> simp [Function.comp, h]

theorem addrsOf_setFlag (db : Db) (cid : Nat) (b : Bool) (x : Nat) :
    addrsOf (setFlag db cid b) x = addrsOf db x := rfl

theorem addrCount_setFlag (db : Db) (cid : Nat) (b : Bool) (x : Nat) :
    addrCount (setFlag db cid b) x = addrCount db x := rfl

theorem flagOf_setFlag (db : Db) (cid : Nat) (b : Bool) :
    flagOf (setFlag db cid b) cid =
      if customerExists db cid = true then some b else none := by
  have hfind := find?_setFlag_map db.customers cid b cid
  simp only [flagOf, setFlag, findCustomer]
  rw [hfind]
  rcases h : db.customers.find? (fun c => c.id == cid) with _ | c
  · have h' := List.find?_eq_none.mp h
    have hex : customerExists db cid = false := by
      simp only [customerExists]
      rw [List.any_eq_false]
      intro x hx
      simpa using h' x hx
    rw [h, hex]
    simp
  · have hc := List.find?_some h
    have hcc : c.id = cid := by simpa using hc
    have hex : customerExists db cid = true := by
      simp only [customerExists, List.any_eq_true]
      exact ⟨c, List.mem_of_find?_eq_some h, hc⟩
    rw [h, hex]
    simp [hcc]

theorem customerExists_iff_find? (db : Db) (cid : Nat) :
    customerExists db cid = true ↔ (findCustomer db cid).isSome := by
  simp [customerExists, findCustomer, List.find?_isSome, List.any_eq_true]

theorem customers_addAddressRows (db : Db) (cid : Nat) (a : AddressInput) :
    (addAddressRows db cid a).customers = db.customers := by
  unfold addAddressRows clearPrimary
  by_cases hp : a.isPrimary = true <;> simp [hp]

theorem customers_updateAddressRows (db : Db) (cid aid : Nat) (p : AddressPatch) :
    (updateAddressRows db cid aid p).customers = db.customers := by
  unfold updateAddressRows clearPrimary
  by_cases hp : p.primStrictTrue = true <;> simp [hp]

theorem customers_deleteAddressRows (db : Db) (cid aid : Nat) :
    (deleteAddressRows db cid aid).customers = db.customers := rfl

theorem flag_after_recompute (D : Db) (cid : Nat) (hex : customerExists D cid = true) :
    flagOf (setFlag D cid (addrCount D cid == 1)) cid =
      some (addrCount (setFlag D cid (addrCount D cid == 1)) cid == 1) := by
  rw [flagOf_setFlag, addrCount_setFlag]
  simp [hex]

theorem getCustomerById_setFlag (db : Db) (cid : Nat) (b : Bool)
    (hex : customerExists db cid = true) :
    ∃ h, Repo.getCustomerById (setFlag db cid b) cid = some h ∧
      h.customer.hasOnlyOneAddress = b := by
  rw [customerExists_iff_find?] at hex
  obtain ⟨c, hc⟩ := Option.isSome_iff_exists.mp hex
  have hcc : c.id = cid := by simpa using List.find?_some hc
  have hc' : List.find? (fun c => c.id == cid) db.customers = some c := hc
  have h2 : findCustomer (setFlag db cid b) cid =
      some { c with hasOnlyOneAddress := b } := by
    simp only [findCustomer, setFlag]
    rw [find?_setFlag_map, hc']
    simp [hcc]
  refine ⟨⟨{ c with hasOnlyOneAddress := b },
    sortAddresses (addrsOf (setFlag db cid b) cid)⟩, ?_, rfl⟩
  unfold Repo.getCustomerById
  rw [h2]

/-- C2: after each of `addAddress` (with its parameters binding, so that
the call completes), `updateAddress` and `deleteAddress` completes for an
existing customer, the customer's stored `hasOnlyOneAddress` flag is true
exactly when the customer's address count in the resulting store is 1. -/
theorem hasOnlyOneAddress_recomputed
    (db : Db) (cid aid : Nat) (a : AddressInput) (p : AddressPatch)
    (hex : customerExists db cid = true)
    (hbind : a.line2.binds = true) :
    flagOf (Repo.addAddress db cid a).1 cid =
        some (addrCount (Repo.addAddress db cid a).1 cid == 1) ∧
    flagOf (Repo.updateAddress db cid aid p).1 cid =
        some (addrCount (Repo.updateAddress db cid aid p).1 cid == 1) ∧
    flagOf (Repo.deleteAddress db cid aid).1 cid =
        some (addrCount (Repo.deleteAddress db cid aid).1 cid == 1) := by
  refine ⟨?_, ?_, ?_⟩
  · unfold Repo.addAddress
    rw [if_neg (by simp [hbind]), if_pos hex]
    refine flag_after_recompute _ cid ?_
    unfold customerExists
    rw [customers_addAddressRows]
    exact hex
  · unfold Repo.updateAddress
    refine flag_after_recompute _ cid ?_
    unfold customerExists
    rw [customers_updateAddressRows]
    exact hex
  · unfold Repo.deleteAddress
    refine flag_after_recompute _ cid ?_
    unfold customerExists
    rw [customers_deleteAddressRows]
    exact hex

/-- Witness for C2: a customer with one address has the flag true; after a
second address is added it is false. -/
theorem hasOnlyOneAddress_recomputed_witness :
    customerExists ⟨[⟨1, "A", "B", "123456", none, "standard", true, 0⟩],
        [⟨1, 1, "L1", none, "C", "S", "India", "1", true, "active"⟩], 2, 2, 1⟩ 1 = true ∧
    (flagOf (Repo.addAddress
          ⟨[⟨1, "A", "B", "123456", none, "standard", true, 0⟩],
            [⟨1, 1, "L1", none, "C", "S", "India", "1", true, "active"⟩], 2, 2, 1⟩
          1 ⟨"L2", JsField.null, "C", "S", "India", "2", false, none⟩).1 1 =
        some (addrCount (Repo.addAddress
          ⟨[⟨1, "A", "B", "123456", none, "standard", true, 0⟩],
            [⟨1, 1, "L1", none, "C", "S", "India", "1", true, "active"⟩], 2, 2, 1⟩
          1 ⟨"L2", JsField.null, "C", "S", "India", "2", false, none⟩).1 1 == 1)) ∧
    flagOf (Repo.addAddress
          ⟨[⟨1, "A", "B", "123456", none, "standard", true, 0⟩],
            [⟨1, 1, "L1", none, "C", "S", "India", "1", true, "active"⟩], 2, 2, 1⟩
          1 ⟨"L2", JsField.null, "C", "S", "India", "2", false, none⟩).1 1 = some false := by
  refine ⟨by decide, (hasOnlyOneAddress_recomputed _ 1 1
    ⟨"L2", JsField.null, "C", "S", "India", "2", false, none⟩ AddressPatch.empty
    (by decide) (by decide)).1, by decide⟩

/-- C4: `markOnlyOneAddress` fails with status 400 exactly when `value=true`
and the address count is not 1, or `value=false` and the count is at most 1;
on failure the store is unchanged, otherwise the flag is written with the
requested value and the hydrated customer is returned. -/
theorem markOnlyOneAddress_spec (db : Db) (cid : Nat) (value : Bool) :
    (((value = true ∧ addrCount db cid ≠ 1) ∨
        (value = false ∧ addrCount db cid ≤ 1)) →
      (Repo.markOnlyOneAddress db cid value).1 = db ∧
        ∃ e, (Repo.markOnlyOneAddress db cid value).2 = .error e ∧ e.status = 400) ∧
    (¬((value = true ∧ addrCount db cid ≠ 1) ∨
        (value = false ∧ addrCount db cid ≤ 1)) →
      (Repo.markOnlyOneAddress db cid value).1 = setFlag db cid value ∧
        (Repo.markOnlyOneAddress db cid value).2 =
          .ok (Repo.getCustomerById (setFlag db cid value) cid) ∧
        flagOf (Repo.markOnlyOneAddress db cid value).1 cid =
          (if customerExists db cid = true then some value else none) ∧
        (customerExists db cid = true →
          ∃ h, (Repo.markOnlyOneAddress db cid value).2 = .ok (some h) ∧
            h.customer.hasOnlyOneAddress = value)) := by
  constructor
  · intro hfail
    unfold Repo.markOnlyOneAddress
    rcases hfail with ⟨hv, hc⟩ | ⟨hv, hc⟩
    · rw [if_pos ⟨hv, hc⟩]
      exact ⟨rfl, _, rfl, rfl⟩
    · subst hv
      rw [if_neg (by simp), if_pos ⟨rfl, hc⟩]
      exact ⟨rfl, _, rfl, rfl⟩
  · intro hok
    have h1 : ¬(value = true ∧ addrCount db cid ≠ 1) := fun h => hok (Or.inl h)
    have h2 : ¬(value = false ∧ addrCount db cid ≤ 1) := fun h => hok (Or.inr h)
    unfold Repo.markOnlyOneAddress
    rw [if_neg h1, if_neg h2]
    refine ⟨rfl, rfl, ?_, ?_⟩
    · exact flagOf_setFlag db cid value
    · intro hex
      obtain ⟨h, hh, hflag⟩ := getCustomerById_setFlag db cid value hex
      exact ⟨h, congrArg Except.ok hh, hflag⟩

/-- Witness for C4: with exactly one address, `markOnlyOneAddress(id, true)`
succeeds and the returned customer carries the flag; with one address,
`markOnlyOneAddress(id, false)` fails with status 400 leaving the store
unchanged. -/
theorem markOnlyOneAddress_spec_witness :
    (∃ h, (Repo.markOnlyOneAddress
        ⟨[⟨1, "A", "B", "123456", none, "standard", false, 0⟩],
          [⟨1, 1, "L1", none, "C", "S", "India", "1", true, "active"⟩], 2, 2, 1⟩
        1 true).2 = .ok (some h) ∧ h.customer.hasOnlyOneAddress = true) ∧
    ((Repo.markOnlyOneAddress
        ⟨[⟨1, "A", "B", "123456", none, "standard", false, 0⟩],
          [⟨1, 1, "L1", none, "C", "S", "India", "1", true, "active"⟩], 2, 2, 1⟩
        1 false).1 =
      ⟨[⟨1, "A", "B", "123456", none, "standard", false, 0⟩],
        [⟨1, 1, "L1", none, "C", "S", "India", "1", true, "active"⟩], 2, 2, 1⟩ ∧
      ∃ e, (Repo.markOnlyOneAddress
        ⟨[⟨1, "A", "B", "123456", none, "standard", false, 0⟩],
          [⟨1, 1, "L1", none, "C", "S", "India", "1", true, "active"⟩], 2, 2, 1⟩
        1 false).2 = .error e ∧ e.status = 400) := by
  constructor
  · exact ((markOnlyOneAddress_spec _ 1 true).2 (by decide)).2.2.2 (by decide)
  · exact (markOnlyOneAddress_spec _ 1 false).1 (Or.inr ⟨rfl, by decide⟩)

/-- C10: the use case passes `markOnlyOneAddress` requests through
`Boolean(value)`, so exactly the falsy JavaScript values (`false`, `null`,
`undefined`, `''`, `0`) are treated as a `false` request and every other
value — the string `"false"` included — as a `true` request. -/
theorem markOnlyOneAddress_truthy_coercion (db : Db) (cid : Nat) (v : JsVal) :
    Usecase.markOnlyOneAddress db cid v =
      Repo.markOnlyOneAddress db cid v.toBoolean ∧
    (v.toBoolean = true ↔
      (v ≠ .vbool false ∧ v ≠ .vnull ∧ v ≠ .vundef ∧
        v ≠ .vstr "" ∧ v ≠ .vnum 0)) ∧
    JsVal.toBoolean (.vstr "false") = true ∧
    Usecase.markOnlyOneAddress db cid (.vstr "false") =
      Repo.markOnlyOneAddress db cid true := by
  refine ⟨rfl, ?_, by decide, rfl⟩
  cases v with
  | vbool b => cases b <;> simp [JsVal.toBoolean]
  | vstr s => simp [JsVal.toBoolean]
  | vnum n => simp [JsVal.toBoolean]
  | vnull => simp [JsVal.toBoolean]
  | vundef => simp [JsVal.toBoolean]

theorem validateCreate_missing (p : CreateInput)
    (h : p.firstName = none ∨ p.lastName = none ∨ p.phone = none) :
    ∃ msgs, validateCreate p = .error msgs ∧
      (p.firstName = none → msgRequired "firstName" ∈ msgs) ∧
      (p.lastName = none → msgRequired "lastName" ∈ msgs) ∧
      (p.phone = none → msgRequired "phone" ∈ msgs) := by
  have hne : ¬(createErrors p).isEmpty = true := by
    rw [List.isEmpty_iff]
    unfold createErrors
    intro hcon
    simp only [List.append_eq_nil] at hcon
    rcases h with h | h | h <;> rw [h] at hcon <;> simp [reqTrimmed] at hcon
  refine ⟨createErrors p, by unfold validateCreate; rw [if_neg hne], ?_, ?_, ?_⟩
  · intro hfn
    unfold createErrors
    rw [hfn]
    simp [reqTrimmed, msgRequired]
  · intro hln
    unfold createErrors
    rw [hln]
    simp [reqTrimmed, msgRequired]
  · intro hph
    unfold createErrors
    rw [hph]
    simp [reqTrimmed, msgRequired]

/-- C7: a creation payload missing any of `firstName`, `lastName`, `phone`
is rejected with the validation error (status 400) whose `details` list
carries the message of every missing field, not only the first one; the
store is untouched. -/
theorem createCustomer_collects_all_violations (db : Db) (p : CreateInput)
    (h : p.firstName = none ∨ p.lastName = none ∨ p.phone = none) :
    ∃ e, (Usecase.createCustomer db p).2 = .error e ∧ e.status = 400 ∧
      (Usecase.createCustomer db p).1 = db ∧
      (p.firstName = none → msgRequired "firstName" ∈ e.details) ∧
      (p.lastName = none → msgRequired "lastName" ∈ e.details) ∧
      (p.phone = none → msgRequired "phone" ∈ e.details) := by
  obtain ⟨msgs, hval, h1, h2, h3⟩ := validateCreate_missing p h
  refine ⟨⟨400, "Validation failed", msgs⟩, ?_, rfl, ?_, h1, h2, h3⟩
  · unfold Usecase.createCustomer
    rw [hval]
  · unfold Usecase.createCustomer
    rw [hval]

/-- Witness for C7: the empty payload is rejected with all three required
messages collected. -/
theorem createCustomer_collects_all_violations_witness :
    ∃ e, (Usecase.createCustomer ⟨[], [], 1, 1, 0⟩
        ⟨none, none, none, none, none, none⟩).2 = .error e ∧ e.status = 400 ∧
      (Usecase.createCustomer ⟨[], [], 1, 1, 0⟩
        ⟨none, none, none, none, none, none⟩).1 = ⟨[], [], 1, 1, 0⟩ ∧
      (msgRequired "firstName" ∈ e.details ∧ msgRequired "lastName" ∈ e.details ∧
        msgRequired "phone" ∈ e.details) := by
  obtain ⟨e, he, hs, hdb, hf, hl, hp⟩ :=
    createCustomer_collects_all_violations ⟨[], [], 1, 1, 0⟩
      ⟨none, none, none, none, none, none⟩ (Or.inl rfl)
  exact ⟨e, he, hs, hdb, hf rfl, hl rfl, hp rfl⟩

/-- C6 as stated is falsified by an invalid payload whose phone is already
taken: validation runs first, so the call fails with the validation error
(status 400), not with the conflict error (status 409). -/
theorem createCustomer_duplicate_phone_counterexample :
    Repo.existsByPhone ⟨[⟨1, "A", "B", "123456", none, "standard", false, 0⟩], [], 2, 1, 1⟩
        "123456" = true ∧
    (Usecase.createCustomer ⟨[⟨1, "A", "B", "123456", none, "standard", false, 0⟩], [], 2, 1, 1⟩
        ⟨none, some "Doe", some "123456", none, none, none⟩).2 =
      .error ⟨400, "Validation failed", [msgRequired "firstName"]⟩ ∧
    (400 : Nat) ≠ 409 := by
  refine ⟨by decide, by decide, by decide⟩

/-- C6 amended: a creation payload that passes validation and whose phone is
already stored fails with the conflict error (status 409) and leaves the
store exactly as it was. -/
theorem createCustomer_conflict_on_taken_phone (db : Db) (p : CreateInput)
    (v : CreateValue) (hv : validateCreate p = .ok v)
    (hp : Repo.existsByPhone db v.phone = true) :
    (Usecase.createCustomer db p).1 = db ∧
    (Usecase.createCustomer db p).2 = .error ⟨409, "Phone already exists", []⟩ := by
  unfold Usecase.createCustomer
  rw [hv]
  simp [hp]

/-- Witness for C6 amended: a valid payload reusing a stored phone. -/
theorem createCustomer_conflict_on_taken_phone_witness :
    (Usecase.createCustomer ⟨[⟨1, "A", "B", "123456", none, "standard", false, 0⟩], [], 2, 1, 1⟩
        ⟨some "John", some "Doe", some "123456", none, none, none⟩).1 =
      ⟨[⟨1, "A", "B", "123456", none, "standard", false, 0⟩], [], 2, 1, 1⟩ ∧
    (Usecase.createCustomer ⟨[⟨1, "A", "B", "123456", none, "standard", false, 0⟩], [], 2, 1, 1⟩
        ⟨some "John", some "Doe", some "123456", none, none, none⟩).2 =
      .error ⟨409, "Phone already exists", []⟩ :=
  createCustomer_conflict_on_taken_phone _ _
    ⟨"John", "Doe", "123456", none, "standard", none⟩ (by decide) (by decide)

theorem addresses_setFlag (db : Db) (cid : Nat) (b : Bool) :
    (setFlag db cid b).addresses = db.addresses := rfl

theorem findCustomer_eq_none (db : Db) (cid : Nat)
    (h : customerExists db cid = false) : findCustomer db cid = none := by
  rcases hf : findCustomer db cid with _ | c
  · rfl
  · exfalso
    have hx := (customerExists_iff_find? db cid).mpr (by rw [hf]; rfl)
    rw [h] at hx
    exact Bool.false_ne_true hx

theorem getCustomerById_none (db : Db) (cid : Nat)
    (h : customerExists db cid = false) : Repo.getCustomerById db cid = none := by
  unfold Repo.getCustomerById
  rw [findCustomer_eq_none db cid h]

theorem getCustomerById_isSome (db : Db) (cid : Nat)
    (h : customerExists db cid = true) : (Repo.getCustomerById db cid).isSome = true := by
  rw [customerExists_iff_find?] at h
  obtain ⟨c, hc⟩ := Option.isSome_iff_exists.mp h
  unfold Repo.getCustomerById
  rw [hc]
  rfl

/-- C9 as stated is falsified: `updateAddress` with a nonexistent
`addressId` and a patch with `isPrimary === true` does not leave the
addresses unchanged — it still clears the primary flag of the customer's
existing address before the (empty) scoped update. -/
theorem updateAddress_missing_address_counterexample :
    (Repo.updateAddress
        ⟨[⟨1, "A", "B", "123456", none, "standard", true, 0⟩],
          [⟨1, 1, "L1", none, "C", "S", "India", "1", true, "active"⟩], 2, 2, 1⟩
        1 99 ⟨none, none, none, none, none, none, some .jtrue, none⟩).1.addresses =
      [⟨1, 1, "L1", none, "C", "S", "India", "1", false, "active"⟩] ∧
    [⟨1, 1, "L1", none, "C", "S", "India", "1", false, "active"⟩] ≠
      [(⟨1, 1, "L1", none, "C", "S", "India", "1", true, "active"⟩ : Address)] := by
  refine ⟨by decide, by decide⟩

/-- C9 amended: `updateAddress` and `deleteAddress` never raise; with a
nonexistent customer both return `null`; with an existing customer and an
`addressId` that matches none of its addresses, `deleteAddress` leaves the
address table unchanged, `updateAddress` leaves it unchanged provided the
patch does not set `isPrimary === true` (otherwise it still clears the
customer's primary flags), and both return the hydrated customer. -/
theorem addressOps_missing_ids (db : Db) (cid aid : Nat) (p : AddressPatch) :
    (customerExists db cid = false →
      (Repo.updateAddress db cid aid p).2 = none ∧
      (Repo.deleteAddress db cid aid).2 = none) ∧
    ((∀ a ∈ db.addresses, a.customerId = cid → a.id ≠ aid) →
      ((Repo.deleteAddress db cid aid).1.addresses = db.addresses ∧
        (p.primStrictTrue = false →
          (Repo.updateAddress db cid aid p).1.addresses = db.addresses) ∧
        (customerExists db cid = true →
          ((Repo.updateAddress db cid aid p).2.isSome = true ∧
            (Repo.deleteAddress db cid aid).2.isSome = true)))) := by
  constructor
  · intro h
    constructor
    · refine getCustomerById_none _ cid ?_
      rw [customerExists_setFlag]
      unfold customerExists
      rw [customers_updateAddressRows]
      exact h
    · refine getCustomerById_none _ cid ?_
      rw [customerExists_setFlag]
      unfold customerExists
      rw [customers_deleteAddressRows]
      exact h
  · intro hmiss
    have hdel : (deleteAddressRows db cid aid).addresses = db.addresses := by
      unfold deleteAddressRows
      rw [List.filter_eq_self]
      intro a ha
      by_cases hc : a.customerId = cid
      · have hne := hmiss a ha hc
        simp [hne]
      · simp [hc]
    refine ⟨?_, ?_, ?_⟩
    · calc (Repo.deleteAddress db cid aid).1.addresses
          = (deleteAddressRows db cid aid).addresses := rfl
        _ = db.addresses := hdel
    · intro hps
      have hupd : (updateAddressRows db cid aid p).addresses = db.addresses := by
        unfold updateAddressRows
        rw [hps]
        have hid : ∀ a ∈ db.addresses,
            (if a.id == aid && a.customerId == cid then applyPatch p a else a) = a := by
          intro a ha
          by_cases hc : a.customerId = cid
          · have hne := hmiss a ha hc
            simp [hne]
          · simp [hc]
        simp only [Bool.false_eq_true, if_false]
        rw [List.map_congr_left hid]
        exact List.map_id db.addresses
      calc (Repo.updateAddress db cid aid p).1.addresses
          = (updateAddressRows db cid aid p).addresses := rfl
        _ = db.addresses := hupd
    · intro hex
      constructor
      · refine getCustomerById_isSome _ cid ?_
        rw [customerExists_setFlag]
        unfold customerExists
        rw [customers_updateAddressRows]
        exact hex
      · refine getCustomerById_isSome _ cid ?_
        rw [customerExists_setFlag]
        unfold customerExists
        rw [customers_deleteAddressRows]
        exact hex

/-- Witness for C9 amended: a customer with one address, a stray address id
and a patch without `isPrimary === true`. -/
theorem addressOps_missing_ids_witness :
    ((Repo.deleteAddress
        ⟨[⟨1, "A", "B", "123456", none, "standard", true, 0⟩],
          [⟨1, 1, "L1", none, "C", "S", "India", "1", true, "active"⟩], 2, 2, 1⟩
        1 99).1.addresses =
      [⟨1, 1, "L1", none, "C", "S", "India", "1", true, "active"⟩] ∧
      (Repo.updateAddress
        ⟨[⟨1, "A", "B", "123456", none, "standard", true, 0⟩],
          [⟨1, 1, "L1", none, "C", "S", "India", "1", true, "active"⟩], 2, 2, 1⟩
        1 99 ⟨some "X", none, none, none, none, none, none, none⟩).1.addresses =
      [⟨1, 1, "L1", none, "C", "S", "India", "1", true, "active"⟩]) ∧
    (Repo.updateAddress ⟨[], [], 1, 1, 0⟩ 7 99
        ⟨some "X", none, none, none, none, none, none, none⟩).2 = none := by
  have h1 := (addressOps_missing_ids
    ⟨[⟨1, "A", "B", "123456", none, "standard", true, 0⟩],
      [⟨1, 1, "L1", none, "C", "S", "India", "1", true, "active"⟩], 2, 2, 1⟩
    1 99 ⟨some "X", none, none, none, none, none, none, none⟩).2 (by decide)
  have h2 := (addressOps_missing_ids ⟨[], [], 1, 1, 0⟩ 7 99
    ⟨some "X", none, none, none, none, none, none, none⟩).1 (by decide)
  exact ⟨⟨h1.1, h1.2.1 (by decide)⟩, h2.1⟩

theorem ceil_div_bounds (t L : Nat) (hL : 1 ≤ L) :
    t ≤ L * ((t + L - 1) / L) ∧ L * ((t + L - 1) / L) < t + L := by
  have hL0 : 0 < L := hL
  have hdm := Nat.div_add_mod (t + L - 1) L
  have hmlt := Nat.mod_lt (t + L - 1) hL0
  omega

theorem ceil_div_bounds_int (t L : Nat) (hL : 1 ≤ L) :
    (t : Int) ≤ (((t + L - 1) / L : Nat) : Int) * L ∧
    ((((t + L - 1) / L : Nat) : Int) - 1) * L < t := by
  obtain ⟨h1, h2⟩ := ceil_div_bounds t L hL
  constructor
  · calc (t : Int) ≤ ((L * ((t + L - 1) / L) : Nat) : Int) := by exact_mod_cast h1
      _ = (((t + L - 1) / L : Nat) : Int) * L := by push_cast; ring
  · have h2' : ((L * ((t + L - 1) / L) : Nat) : Int) < (t : Int) + L := by exact_mod_cast h2
    have h3 : (((t + L - 1) / L : Nat) : Int) * L =
        ((L * ((t + L - 1) / L) : Nat) : Int) := by push_cast; ring
    linarith [h3]

/-- C5 as stated is falsified: with `page = "abc"`, `parseInt` yields `NaN`,
`Math.max(1, NaN)` stays `NaN`, and `getCustomers` reports that `NaN` page
(and a `NaN` offset), not a number at least 1. -/
theorem getCustomers_nan_page_counterexample :
    (Usecase.getCustomers ⟨[], [], 1, 1, 0⟩
        ⟨none, none, none, none, none, none, none, some "abc", none⟩).page = none ∧
    (parsePagination (some "abc") none).offset = none := by
  refine ⟨by decide, by decide⟩

/-- C5 amended: whenever the supplied `page` and `limit` parse to numbers
(`parseInt` does not yield `NaN`), `getCustomers` normalizes the page to at
least 1 (default 1), clamps the limit into `[1,100]` (default 10), computes
`offset = (page-1)*limit`, reports `pages` as the exact ceiling of
`total/limit` (0 when total is 0), and for `page=2, limit=10` serves the
window starting at offset 10 — items 11 through 20 — with `pages = 3` when
25 customers match. -/
theorem getCustomers_pagination_spec (db : Db) (qr : ListQuery)
    (hp : jsParseInt (jsOrDefault qr.page "1") ≠ none)
    (hl : jsParseInt (jsOrDefault qr.limit "10") ≠ none) :
    ∃ p l : Int,
      (Usecase.getCustomers db qr).page = some p ∧
      (Usecase.getCustomers db qr).limit = some l ∧
      1 ≤ p ∧ 1 ≤ l ∧ l ≤ 100 ∧
      (qr.page = none → p = 1) ∧
      (qr.limit = none → l = 10) ∧
      (parsePagination qr.page qr.limit).offset = some ((p - 1) * l) ∧
      ((Usecase.getCustomers db qr).total = 0 →
        (Usecase.getCustomers db qr).pages = 0) ∧
      ((Usecase.getCustomers db qr).total ≠ 0 →
        (((Usecase.getCustomers db qr).total : Int) ≤
            (Usecase.getCustomers db qr).pages * l ∧
          ((Usecase.getCustomers db qr).pages - 1) * l <
            ((Usecase.getCustomers db qr).total : Int))) ∧
      (qr.page = some "2" → qr.limit = some "10" →
        (p = 2 ∧ l = 10 ∧
          (Usecase.getCustomers db qr).items =
            Repo.findCustomers db qr (Usecase.sortDesc qr) (some 10) (some 10) ∧
          ((Usecase.getCustomers db qr).total = 25 →
            (Usecase.getCustomers db qr).pages = 3))) := by
  obtain ⟨n, hn⟩ := Option.ne_none_iff_exists'.mp hp
  obtain ⟨m, hm⟩ := Option.ne_none_iff_exists'.mp hl
  have hpg : parsePagination qr.page qr.limit =
      ⟨some (max 1 n), some (min 100 (max 1 m)),
        some ((max 1 n - 1) * min 100 (max 1 m))⟩ := by
    simp [parsePagination, jsMax, jsMin, hn, hm]
  have hl1 : (1 : Int) ≤ min 100 (max 1 m) :=
    le_min (by norm_num) (le_max_left 1 m)
  have hLnat : ((min 100 (max 1 m)).toNat : Int) = min 100 (max 1 m) :=
    Int.toNat_of_nonneg (by omega)
  have hLge : 1 ≤ (min 100 (max 1 m)).toNat := by omega
  refine ⟨max 1 n, min 100 (max 1 m), ?_, ?_, le_max_left 1 n, hl1, min_le_left _ _,
    ?_, ?_, ?_, ?_, ?_, ?_⟩
  · simp [Usecase.getCustomers, hpg]
  · simp [Usecase.getCustomers, hpg]
  · intro h
    rw [h] at hn
    have : jsParseInt (jsOrDefault none "1") = some 1 := by decide
    rw [this] at hn
    injection hn with hn1
    omega
  · intro h
    rw [h] at hm
    have : jsParseInt (jsOrDefault none "10") = some 10 := by decide
    rw [this] at hm
    injection hm with hm1
    omega
  · rw [hpg]
  · intro h0
    simp [Usecase.getCustomers, hpg] at h0 ⊢
    simp [h0]
  · intro h0
    have htot : (Usecase.getCustomers db qr).total = Repo.countCustomers db qr := by
      simp [Usecase.getCustomers]
    rw [htot] at h0 ⊢
    have hpages : (Usecase.getCustomers db qr).pages =
        (((Repo.countCustomers db qr + (min 100 (max 1 m)).toNat - 1) /
          (min 100 (max 1 m)).toNat : Nat) : Int) := by
      simp [Usecase.getCustomers, hpg, h0]
    rw [hpages]
    have := ceil_div_bounds_int (Repo.countCustomers db qr)
      (min 100 (max 1 m)).toNat hLge
    rw [hLnat] at this
    exact this
  · intro h2 h10
    rw [h2] at hn
    rw [h10] at hm
    have hn2 : jsParseInt (jsOrDefault (some "2") "1") = some 2 := by decide
    have hm10 : jsParseInt (jsOrDefault (some "10") "10") = some 10 := by decide
    rw [hn2] at hn
    rw [hm10] at hm
    injection hn with hn1
    injection hm with hm1
    subst hn1
    subst hm1
    refine ⟨by norm_num, by norm_num, ?_, ?_⟩
    · have : (max 1 (2:Int) - 1) * min 100 (max 1 10) = 10 := by norm_num
      simp [Usecase.getCustomers, hpg, this]
    · intro h25
      have htot : Repo.countCustomers db qr = 25 := by
        simpa [Usecase.getCustomers] using h25
      simp [Usecase.getCustomers, hpg, htot]

/-- A store of 25 customers with no addresses, for the pagination
witness. -/
def db25 : Db :=
  ⟨(List.range 25).map (fun i => ⟨i + 1, "F", "L", "p", none, "standard", false, i⟩),
    [], 26, 1, 25⟩

/-- The pagination query `{page: "2", limit: "10"}`. -/
def q210 : ListQuery :=
  ⟨none, none, none, none, none, none, none, some "2", some "10"⟩

/-- Witness for C5 amended: 25 matching customers with `page=2, limit=10`
give 10 items (items 11-20 of the sorted order), `total = 25`, `pages = 3`,
and metadata `page = 2`, `limit = 10`. -/
theorem getCustomers_pagination_spec_witness :
    (∃ p l : Int,
      (Usecase.getCustomers db25 q210).page = some p ∧
      (Usecase.getCustomers db25 q210).limit = some l ∧
      1 ≤ p ∧ 1 ≤ l ∧ l ≤ 100 ∧
      (q210.page = none → p = 1) ∧
      (q210.limit = none → l = 10) ∧
      (parsePagination q210.page q210.limit).offset = some ((p - 1) * l) ∧
      ((Usecase.getCustomers db25 q210).total = 0 →
        (Usecase.getCustomers db25 q210).pages = 0) ∧
      ((Usecase.getCustomers db25 q210).total ≠ 0 →
        (((Usecase.getCustomers db25 q210).total : Int) ≤
            (Usecase.getCustomers db25 q210).pages * l ∧
          ((Usecase.getCustomers db25 q210).pages - 1) * l <
            ((Usecase.getCustomers db25 q210).total : Int))) ∧
      (q210.page = some "2" → q210.limit = some "10" →
        (p = 2 ∧ l = 10 ∧
          (Usecase.getCustomers db25 q210).items =
            Repo.findCustomers db25 q210 (Usecase.sortDesc q210) (some 10) (some 10) ∧
          ((Usecase.getCustomers db25 q210).total = 25 →
            (Usecase.getCustomers db25 q210).pages = 3)))) ∧
    (Usecase.getCustomers db25 q210).total = 25 ∧
    (Usecase.getCustomers db25 q210).pages = 3 ∧
    (Usecase.getCustomers db25 q210).items.map (fun h => h.customer.id) =
      [15, 14, 13, 12, 11, 10, 9, 8, 7, 6] := by
  refine ⟨getCustomers_pagination_spec db25 q210 (by decide) (by decide),
    by decide, by decide, by decide⟩

/-- C3, spec side: the query occurs in the field as a case-insensitive
literal substring, with `%`/`_` taken as ordinary characters. -/
def specContainsCI (needle hay : String) : Bool :=
  let n := needle.data.map Char.toLower
  let h := hay.data.map Char.toLower
  (List.range (h.length + 1)).any (fun i => (h.drop i).take n.length == n)

/-- C3: `escapeLike` backslash-escapes `%` and `_` — its documentation and
usage example call for a `LIKE ... ESCAPE '\\'` query — but the use case
binds the pattern to plain `LIKE`, which has no escape character in SQLite.
The backslash is therefore matched literally and `%` keeps acting as a
wildcard: for `q = "100%"` a customer whose firstName contains `"100%"`
literally is not returned at all, while a field containing `100\` would
match. -/
theorem getCustomers_escape_code_bug :
    specContainsCI "100%" "100% real" = true ∧
    (Usecase.getCustomers
        ⟨[⟨1, "100% real", "Doe", "123456", none, "standard", false, 0⟩], [], 2, 1, 1⟩
        ⟨some "100%", none, none, none, none, none, none, none, none⟩).total = 0 ∧
    (Usecase.getCustomers
        ⟨[⟨1, "100% real", "Doe", "123456", none, "standard", false, 0⟩], [], 2, 1, 1⟩
        ⟨some "100%", none, none, none, none, none, none, none, none⟩).items = [] ∧
    likeMatch (likePattern "100%") "x100\\zz".data = true ∧
    (Usecase.getCustomers
        ⟨[⟨1, "John", "Doe", "123456", none, "standard", false, 0⟩], [], 2, 1, 1⟩
        ⟨some "john", none, none, none, none, none, none, none, none⟩).total = 1 := by
  refine ⟨by decide, by decide, by decide, by decide, by decide⟩

-- ---------- Primary-exclusivity infrastructure ----------

theorem primCount_eq_filter (db : Db) (cid : Nat) :
    primCount db cid = (db.addresses.filter
      (fun a => a.customerId == cid && a.isPrimary)).length := by
  unfold primCount addrsOf
  rw [List.filter_filter]
  congr 1
  apply List.filter_congr
  intro a _
  exact Bool.and_comm _ _

theorem length_filter_mono {α : Type} (l : List α) (p q : α → Bool)
    (h : ∀ a ∈ l, p a = true → q a = true) :
    (l.filter p).length ≤ (l.filter q).length := by
  induction l with
  | nil => simp
  | cons a t ih =>
      have ht : ∀ x ∈ t, p x = true → q x = true :=
        fun x hx => h x (List.mem_cons_of_mem a hx)
      by_cases hpa : p a = true
      · rw [List.filter_cons_of_pos hpa,
          List.filter_cons_of_pos (h a (List.mem_cons_self a t) hpa)]
        simpa using ih ht
      · rw [List.filter_cons_of_neg (by simpa using hpa)]
        by_cases hqa : q a = true
        · rw [List.filter_cons_of_pos hqa]
          calc (t.filter p).length ≤ (t.filter q).length := ih ht
            _ ≤ (a :: t.filter q).length := by simp
        · rw [List.filter_cons_of_neg (by simpa using hqa)]
          exact ih ht

theorem length_filter_eq_id_le_one (l : List Address) (aid : Nat)
    (h : (l.map (fun a => a.id)).Nodup) :
    (l.filter (fun a => a.id == aid)).length ≤ 1 := by
  induction l with
  | nil => simp
  | cons a t ih =>
      rw [List.map_cons, List.nodup_cons] at h
      by_cases ha : a.id = aid
      · rw [List.filter_cons_of_pos (by simpa using ha)]
        have hnil : t.filter (fun x => x.id == aid) = [] := by
          rw [List.filter_eq_nil_iff]
          intro x hx
          simp only [beq_iff_eq]
          intro hxid
          exact h.1 (by
            rw [← ha] at hxid
            exact hxid ▸ List.mem_map_of_mem (fun a => a.id) hx)
        rw [hnil]
        simp
      · rw [List.filter_cons_of_neg (by simpa using ha)]
        exact ih h.2

theorem primCount_clearPrimary (db : Db) (cid x : Nat) :
    primCount (clearPrimary db cid) x = if x = cid then 0 else primCount db x := by
  rw [primCount_eq_filter, primCount_eq_filter]
  show ((db.addresses.map
      (fun a => if a.customerId == cid then { a with isPrimary := false } else a)).filter
      (fun a => a.customerId == x && a.isPrimary)).length = _
  rw [List.filter_map, List.length_map]
  by_cases hx : x = cid
  · subst hx
    have hf : ((fun a : Address => a.customerId == x && a.isPrimary) ∘
        fun a => if a.customerId == x then { a with isPrimary := false } else a) =
        fun _ => false := by
      funext a
      by_cases hc : a.customerId = x <;> simp [Function.comp, hc]
    rw [hf]
    simp
  · have hf : ((fun a : Address => a.customerId == x && a.isPrimary) ∘
        fun a => if a.customerId == cid then { a with isPrimary := false } else a) =
        (fun a : Address => a.customerId == x && a.isPrimary) := by
      funext a
      by_cases hc : a.customerId = cid
      · have hbx : (a.customerId == x) = false := by
          rw [hc]
          exact beq_eq_false_iff_ne.mpr (fun h => hx h.symm)
        simp [Function.comp, hc, hbx]
        exact fun h => absurd h.symm hx
      · simp [Function.comp, hc]
    rw [hf]
    simp [hx]

theorem addrsOf_clearPrimary_self (db : Db) (cid : Nat) :
    addrsOf (clearPrimary db cid) cid =
      (addrsOf db cid).map (fun x => { x with isPrimary := false }) := by
  unfold addrsOf
  show (db.addresses.map
      (fun a => if a.customerId == cid then { a with isPrimary := false } else a)).filter
      (fun a => a.customerId == cid) = _
  rw [List.filter_map]
  have hf : ((fun a : Address => a.customerId == cid) ∘
      fun a => if a.customerId == cid then { a with isPrimary := false } else a) =
      (fun a : Address => a.customerId == cid) := by
    funext a
    by_cases hc : a.customerId = cid <;> simp [Function.comp, hc]
  rw [hf]
  apply List.map_congr_left
  intro a ha
  have := List.of_mem_filter ha
  simp only [beq_iff_eq] at this
  simp [this]

theorem nextAddressId_clearPrimary (db : Db) (cid : Nat) :
    (clearPrimary db cid).nextAddressId = db.nextAddressId := rfl

theorem addresses_clearPrimary (db : Db) (cid : Nat) :
    (clearPrimary db cid).addresses = db.addresses.map
      (fun a => if a.customerId == cid then { a with isPrimary := false } else a) := rfl

theorem preClear_nextAddressId (db : Db) (cid : Nat) (b : Bool) :
    (if b then clearPrimary db cid else db).nextAddressId = db.nextAddressId := by
  by_cases hb : b = true <;> simp [hb, nextAddressId_clearPrimary]

theorem addresses_addAddressRows (db : Db) (cid : Nat) (a : AddressInput) :
    (addAddressRows db cid a).addresses =
      (if a.isPrimary then clearPrimary db cid else db).addresses ++
        [⟨db.nextAddressId, cid, a.line1, a.line2.toCol, a.city, a.state,
          a.country, a.pincode, a.isPrimary, jsOrDefault a.status "active"⟩] := by
  by_cases hp : a.isPrimary = true <;>
    simp [addAddressRows, hp, nextAddressId_clearPrimary]

theorem nextAddressId_addAddressRows (db : Db) (cid : Nat) (a : AddressInput) :
    (addAddressRows db cid a).nextAddressId = db.nextAddressId + 1 := by
  by_cases hp : a.isPrimary = true <;>
    simp [addAddressRows, hp, nextAddressId_clearPrimary]

theorem length_filter_append_single (l : List Address) (r : Address)
    (p : Address → Bool) :
    ((l ++ [r]).filter p).length =
      (l.filter p).length + (if p r = true then 1 else 0) := by
  rw [List.filter_append]
  by_cases hr : p r = true
  · rw [List.filter_cons_of_pos hr]
    simp [hr]
  · rw [List.filter_cons_of_neg (by simpa using hr)]
    simp [hr]

theorem primCount_addAddressRows (db : Db) (cid : Nat) (a : AddressInput) (x : Nat) :
    primCount (addAddressRows db cid a) x =
      if x = cid then (if a.isPrimary then 1 else primCount db cid)
      else primCount db x := by
  rw [primCount_eq_filter, addresses_addAddressRows, length_filter_append_single]
  by_cases hp : a.isPrimary = true
  · have hclear : (if a.isPrimary then clearPrimary db cid else db) = clearPrimary db cid := by
      rw [hp]
      simp
    rw [hclear]
    have := primCount_clearPrimary db cid x
    rw [primCount_eq_filter] at this
    rw [show (clearPrimary db cid).addresses.filter
        (fun a => a.customerId == x && a.isPrimary) =
        (clearPrimary db cid).addresses.filter
        (fun a => a.customerId == x && a.isPrimary) from rfl]
    rw [this]
    by_cases hx : x = cid
    · subst hx
      simp [hp]
    · have hbx : (cid == x) = false := beq_eq_false_iff_ne.mpr (fun h => hx h.symm)
      simp [hx, hbx, hp]
  · have hclear : (if a.isPrimary then clearPrimary db cid else db) = db := by
      have : a.isPrimary = false := by simpa using hp
      rw [this]
      simp
    rw [hclear, ← primCount_eq_filter]
    by_cases hx : x = cid
    · subst hx
      have : a.isPrimary = false := by simpa using hp
      simp [this]
    · have hbx : (cid == x) = false := beq_eq_false_iff_ne.mpr (fun h => hx h.symm)
      simp [hx, hbx]

theorem applyPatch_customerId (p : AddressPatch) (a : Address) :
    (applyPatch p a).customerId = a.customerId := rfl

theorem applyPatch_id (p : AddressPatch) (a : Address) :
    (applyPatch p a).id = a.id := rfl

theorem length_filter_map_congr (l : List Address) (f : Address → Address)
    (p : Address → Bool) (h : ∀ a ∈ l, p (f a) = p a) :
    ((l.map f).filter p).length = (l.filter p).length := by
  rw [List.filter_map, List.length_map]
  congr 1
  apply List.filter_congr
  intro a ha
  exact h a ha

theorem addresses_updateAddressRows (db : Db) (cid aid : Nat) (p : AddressPatch) :
    (updateAddressRows db cid aid p).addresses =
      ((if p.primStrictTrue then clearPrimary db cid else db).addresses.map
        (fun a => if a.id == aid && a.customerId == cid then applyPatch p a else a)) := by
  by_cases hs : p.primStrictTrue = true <;> simp [updateAddressRows, hs]

theorem primCount_updateAddressRows_other (db : Db) (cid aid : Nat)
    (p : AddressPatch) (x : Nat) (hx : x ≠ cid) :
    primCount (updateAddressRows db cid aid p) x = primCount db x := by
  rw [primCount_eq_filter, addresses_updateAddressRows, length_filter_map_congr]
  · rw [← primCount_eq_filter]
    by_cases hs : p.primStrictTrue = true
    · rw [hs]
      simp only [if_true]
      rw [primCount_clearPrimary]
      simp [hx]
    · have : p.primStrictTrue = false := by simpa using hs
      rw [this]
      simp
  · intro a _
    by_cases ht : (a.id == aid && a.customerId == cid) = true
    · have hcust : a.customerId = cid := by
        have := ht
        simp only [Bool.and_eq_true, beq_iff_eq] at this
        exact this.2
      have hbx : (a.customerId == x) = false := by
        rw [hcust]
        exact beq_eq_false_iff_ne.mpr (fun h => hx h.symm)
      simp [ht, applyPatch_customerId, hbx]
    · simp [ht]

theorem primCount_updateAddressRows_cid_le (db : Db) (cid aid : Nat)
    (p : AddressPatch) (hwf : AddrWF db)
    (hstd : p.isPrimary ≠ some JsBool.jtruthy)
    (hinv : primCount db cid ≤ 1) :
    primCount (updateAddressRows db cid aid p) cid ≤ 1 := by
  rcases hip : p.isPrimary with _ | v
  · -- no isPrimary in the patch: counts are unchanged
    have hs : p.primStrictTrue = false := by
      simp [AddressPatch.primStrictTrue, hip]
    rw [primCount_eq_filter, addresses_updateAddressRows, hs]
    simp only [Bool.false_eq_true, if_false]
    rw [length_filter_map_congr]
    · rw [← primCount_eq_filter]
      exact hinv
    · intro a _
      by_cases ht : (a.id == aid && a.customerId == cid) = true
      · have hpm : (applyPatch p a).isPrimary = a.isPrimary := by
          unfold applyPatch
          rw [hip]
        simp [ht, applyPatch_customerId, hpm]
      · simp [ht]
  · cases v with
    | jtruthy => exact absurd hip hstd
    | jfalsy =>
        -- the target rows lose the flag: the count cannot grow
        have hs : p.primStrictTrue = false := by
          simp [AddressPatch.primStrictTrue, hip, JsBool.strictTrue]
        rw [primCount_eq_filter, addresses_updateAddressRows, hs]
        simp only [Bool.false_eq_true, if_false]
        rw [List.filter_map, List.length_map]
        refine le_trans (length_filter_mono db.addresses _
          (fun a => a.customerId == cid && a.isPrimary) ?_) ?_
        · intro a _ ha
          simp only [Function.comp] at ha
          by_cases ht : (a.id == aid && a.customerId == cid) = true
          · rw [if_pos ht] at ha
            have hfalse : (applyPatch p a).isPrimary = false := by
              unfold applyPatch
              rw [hip]
              rfl
            rw [hfalse] at ha
            simp at ha
          · rw [if_neg ht] at ha
            exact ha
        · rw [← primCount_eq_filter]
          exact hinv
    | jtrue =>
        -- siblings are cleared first; at most the one row with this id can
        -- then carry the flag
        have hs : p.primStrictTrue = true := by
          simp [AddressPatch.primStrictTrue, hip, JsBool.strictTrue]
        rw [primCount_eq_filter, addresses_updateAddressRows, hs]
        simp only [if_true]
        rw [List.filter_map, List.length_map]
        refine le_trans (length_filter_mono _ _
          (fun a => a.id == aid) ?_) ?_
        · intro a ha hpa
          simp only [Function.comp] at hpa
          by_cases ht : (a.id == aid && a.customerId == cid) = true
          · simp only [Bool.and_eq_true, beq_iff_eq] at ht
            simp [ht.1]
          · rw [if_neg ht] at hpa
            -- a row of the cleared table that still carries the flag: impossible
            exfalso
            have hcl := primCount_clearPrimary db cid cid
            rw [if_pos rfl, primCount_eq_filter] at hcl
            have hmem : a ∈ (clearPrimary db cid).addresses.filter
                (fun a => a.customerId == cid && a.isPrimary) :=
              List.mem_filter.mpr ⟨ha, hpa⟩
            rw [List.length_eq_zero] at hcl
            rw [hcl] at hmem
            exact absurd hmem (List.not_mem_nil a)
        · -- distinct ids in the cleared table
          refine length_filter_eq_id_le_one _ aid ?_
          rw [addresses_clearPrimary]
          rw [List.map_map]
          have : ((fun a : Address => a.id) ∘
              fun a => if a.customerId == cid then { a with isPrimary := false } else a) =
              (fun a : Address => a.id) := by
            funext a
            by_cases hc : a.customerId = cid <;> simp [Function.comp, hc]
          rw [this]
          exact hwf.1

theorem ids_clearPrimary (db : Db) (cid : Nat) :
    (clearPrimary db cid).addresses.map (fun a => a.id) =
      db.addresses.map (fun a => a.id) := by
  rw [addresses_clearPrimary, List.map_map]
  apply List.map_congr_left
  intro a _
  by_cases hc : a.customerId = cid <;> simp [Function.comp, hc]

theorem addrWF_clearPrimary (db : Db) (cid : Nat) (h : AddrWF db) :
    AddrWF (clearPrimary db cid) := by
  constructor
  · rw [ids_clearPrimary]
    exact h.1
  · intro a ha
    rw [addresses_clearPrimary] at ha
    obtain ⟨b, hb, hba⟩ := List.mem_map.mp ha
    have := h.2 b hb
    rw [nextAddressId_clearPrimary]
    by_cases hc : b.customerId = cid
    · rw [← hba]
      simpa [hc] using this
    · rw [← hba]
      simpa [hc] using this

theorem addrWF_addAddressRows (db : Db) (cid : Nat) (a : AddressInput)
    (h : AddrWF db) : AddrWF (addAddressRows db cid a) := by
  have hpre : AddrWF (if a.isPrimary then clearPrimary db cid else db) := by
    by_cases hp : a.isPrimary = true
    · rw [hp]
      simpa using addrWF_clearPrimary db cid h
    · have : a.isPrimary = false := by simpa using hp
      rw [this]
      simpa using h
  have hpreids : (if a.isPrimary then clearPrimary db cid else db).addresses.map
      (fun x => x.id) = db.addresses.map (fun x => x.id) := by
    by_cases hp : a.isPrimary = true
    · rw [hp]
      simpa using ids_clearPrimary db cid
    · have : a.isPrimary = false := by simpa using hp
      rw [this]
      simp
  have hprebound : ∀ x ∈ (if a.isPrimary then clearPrimary db cid else db).addresses,
      x.id < db.nextAddressId := by
    by_cases hp : a.isPrimary = true
    · rw [hp]
      simp only [if_true]
      intro x hx
      have := (addrWF_clearPrimary db cid h).2 x hx
      rwa [nextAddressId_clearPrimary] at this
    · have hfp : a.isPrimary = false := by simpa using hp
      rw [hfp]
      simpa using h.2
  constructor
  · rw [addresses_addAddressRows, List.map_append, List.nodup_append]
    refine ⟨by rw [hpreids]; exact h.1, by simp, ?_⟩
    intro i hi
    rw [hpreids] at hi
    obtain ⟨b, hb, hbi⟩ := List.mem_map.mp hi
    have hlt := h.2 b hb
    simp only [List.map_cons, List.map_nil]
    intro hmem
    rw [List.mem_singleton] at hmem
    omega
  · intro x hx
    rw [addresses_addAddressRows] at hx
    rw [nextAddressId_addAddressRows]
    rcases List.mem_append.mp hx with hx | hx
    · have := hprebound x hx
      omega
    · rw [List.mem_singleton] at hx
      rw [hx]
      simp

theorem ids_updateAddressRows (db : Db) (cid aid : Nat) (p : AddressPatch) :
    (updateAddressRows db cid aid p).addresses.map (fun a => a.id) =
      db.addresses.map (fun a => a.id) := by
  rw [addresses_updateAddressRows, List.map_map]
  have hcomp : ((fun a : Address => a.id) ∘
      fun a => if a.id == aid && a.customerId == cid then applyPatch p a else a) =
      (fun a : Address => a.id) := by
    funext x
    by_cases ht : (x.id == aid && x.customerId == cid) = true <;>
      simp [Function.comp, ht, applyPatch_id]
  rw [hcomp]
  by_cases hs : p.primStrictTrue = true
  · rw [hs]
    simpa using ids_clearPrimary db cid
  · have : p.primStrictTrue = false := by simpa using hs
    rw [this]
    simp

theorem nextAddressId_updateAddressRows (db : Db) (cid aid : Nat) (p : AddressPatch) :
    (updateAddressRows db cid aid p).nextAddressId = db.nextAddressId := by
  by_cases hs : p.primStrictTrue = true <;>
    simp [updateAddressRows, hs, nextAddressId_clearPrimary]

theorem addrWF_updateAddressRows (db : Db) (cid aid : Nat) (p : AddressPatch)
    (h : AddrWF db) : AddrWF (updateAddressRows db cid aid p) := by
  constructor
  · rw [ids_updateAddressRows]
    exact h.1
  · intro x hx
    rw [nextAddressId_updateAddressRows]
    have hxid : x.id ∈ (updateAddressRows db cid aid p).addresses.map (fun a => a.id) :=
      List.mem_map_of_mem _ hx
    rw [ids_updateAddressRows] at hxid
    obtain ⟨b, hb, hbx⟩ := List.mem_map.mp hxid
    have := h.2 b hb
    omega

theorem primCount_setFlag (db : Db) (cid : Nat) (b : Bool) (x : Nat) :
    primCount (setFlag db cid b) x = primCount db x := rfl

theorem nextAddressId_setFlag (db : Db) (cid : Nat) (b : Bool) :
    (setFlag db cid b).nextAddressId = db.nextAddressId := rfl

theorem addrWF_setFlag (db : Db) (cid : Nat) (b : Bool) (h : AddrWF db) :
    AddrWF (setFlag db cid b) := h

theorem filter_prim_map_false (l : List Address) :
    (l.map (fun x => { x with isPrimary := false })).filter
      (fun a => a.isPrimary) = [] := by
  rw [List.filter_map]
  have hf : ((fun a : Address => a.isPrimary) ∘
      fun x : Address => { x with isPrimary := false }) = fun _ => false := by
    funext x
    simp [Function.comp]
  rw [hf]
  simp

theorem addrsOf_addAddressRows_self (db : Db) (cid : Nat) (a : AddressInput) :
    addrsOf (addAddressRows db cid a) cid =
      (if a.isPrimary then (addrsOf db cid).map (fun x => { x with isPrimary := false })
        else addrsOf db cid) ++
      [⟨db.nextAddressId, cid, a.line1, a.line2.toCol, a.city, a.state,
        a.country, a.pincode, a.isPrimary, jsOrDefault a.status "active"⟩] := by
  unfold addrsOf
  rw [addresses_addAddressRows, List.filter_append]
  congr 1
  · by_cases hp : a.isPrimary = true
    · rw [hp]
      simp only [if_true]
      have h1 := addrsOf_clearPrimary_self db cid
      unfold addrsOf at h1
      exact h1
    · have h0 : a.isPrimary = false := by simpa using hp
      rw [h0]
      simp
  · simp

/-- A repository-level mutation from C1's sequences. -/
inductive AddrOp where
  | add : Nat → AddressInput → AddrOp
  | update : Nat → Nat → AddressPatch → AddrOp

/-- The store after one operation (the transaction's effect). -/
def applyAddrOp (db : Db) : AddrOp → Db
  | .add cid a => (Repo.addAddress db cid a).1
  | .update cid aid p => (Repo.updateAddress db cid aid p).1

/-- The store after a sequence of operations. -/
def applyAddrOps (db : Db) (ops : List AddrOp) : Db :=
  ops.foldl applyAddrOp db

/-- The operation's `isPrimary`, when truthy, is the strict boolean `true`;
every request that carries a real boolean satisfies this. -/
def AddrOp.stdPrimary : AddrOp → Prop
  | .add _ _ => True
  | .update _ _ p => p.isPrimary ≠ some JsBool.jtruthy

theorem applyAddrOp_preserves (db : Db) (op : AddrOp)
    (hwf : AddrWF db) (hinv : PrimInv db) (hstd : op.stdPrimary) :
    AddrWF (applyAddrOp db op) ∧ PrimInv (applyAddrOp db op) := by
  cases op with
  | add cid a =>
      show AddrWF (Repo.addAddress db cid a).1 ∧ PrimInv (Repo.addAddress db cid a).1
      unfold Repo.addAddress
      by_cases hb : a.line2.binds = false
      case pos =>
        rw [if_pos hb]
        exact ⟨hwf, hinv⟩
      rw [if_neg hb]
      by_cases hex : customerExists db cid = true
      · rw [if_pos hex]
        show AddrWF (setFlag (addAddressRows db cid a) cid
            (addrCount (addAddressRows db cid a) cid == 1)) ∧
          PrimInv (setFlag (addAddressRows db cid a) cid
            (addrCount (addAddressRows db cid a) cid == 1))
        constructor
        · exact addrWF_setFlag _ _ _ (addrWF_addAddressRows db cid a hwf)
        · intro x
          rw [primCount_setFlag, primCount_addAddressRows]
          by_cases hx : x = cid
          · subst hx
            by_cases hp : a.isPrimary = true
            · simp [hp]
            · have h0 : a.isPrimary = false := by simpa using hp
              simp only [if_pos rfl, h0, Bool.false_eq_true, if_false]
              exact hinv x
          · rw [if_neg hx]
            exact hinv x
      · rw [if_neg hex]
        exact ⟨hwf, hinv⟩
  | update cid aid p =>
      show AddrWF (Repo.updateAddress db cid aid p).1 ∧
        PrimInv (Repo.updateAddress db cid aid p).1
      show AddrWF (setFlag (updateAddressRows db cid aid p) cid
          (addrCount (updateAddressRows db cid aid p) cid == 1)) ∧
        PrimInv (setFlag (updateAddressRows db cid aid p) cid
          (addrCount (updateAddressRows db cid aid p) cid == 1))
      constructor
      · exact addrWF_setFlag _ _ _ (addrWF_updateAddressRows db cid aid p hwf)
      · intro x
        rw [primCount_setFlag]
        by_cases hx : x = cid
        · subst hx
          exact primCount_updateAddressRows_cid_le db x aid p hwf hstd (hinv x)
        · rw [primCount_updateAddressRows_other db cid aid p x hx]
          exact hinv x

/-- C1 as stated is falsified: from a store holding one customer and no
address, `addAddress(primary)`, `addAddress(non-primary)` and then
`updateAddress` of the second address with the truthy non-boolean
`isPrimary = 1` (`jtruthy`) leave the customer with two primary
addresses. -/
theorem primary_exclusivity_counterexample :
    PrimInv ⟨[⟨1, "A", "B", "123456", none, "standard", false, 0⟩], [], 2, 1, 1⟩ ∧
    primCount (applyAddrOps
      ⟨[⟨1, "A", "B", "123456", none, "standard", false, 0⟩], [], 2, 1, 1⟩
      [AddrOp.add 1 ⟨"L1", JsField.null, "C", "S", "India", "1", true, none⟩,
        AddrOp.add 1 ⟨"L2", JsField.null, "C", "S", "India", "2", false, none⟩,
        AddrOp.update 1 2
          ⟨none, none, none, none, none, none, some JsBool.jtruthy, none⟩]) 1 = 2 ∧
    ¬(2 ≤ 1) := by
  refine ⟨?_, by decide, by decide⟩
  intro cid
  simp [primCount, addrsOf]

/-- C1 amended: starting from a well-formed store satisfying the invariant,
any sequence of `addAddress` and `updateAddress` operations in which every
patch's `isPrimary`, when truthy, is the strict boolean `true` keeps at most
one primary address per customer; and after `addAddress` with
`isPrimary=true` twice in succession for an existing customer — with both
bodies binding (`line2` key present), so that the inserts complete —
exactly one of the customer's addresses is primary, namely the most
recently added one (the row created by the second call). -/
theorem primary_exclusive (db : Db) (ops : List AddrOp)
    (hwf : AddrWF db) (hinv : PrimInv db)
    (hops : ∀ op ∈ ops, op.stdPrimary) :
    PrimInv (applyAddrOps db ops) ∧
    (∀ cid (a1 a2 : AddressInput), customerExists db cid = true →
      a1.isPrimary = true → a2.isPrimary = true →
      a1.line2.binds = true → a2.line2.binds = true →
      ((addrsOf (Repo.addAddress (Repo.addAddress db cid a1).1 cid a2).1 cid).filter
          (fun a => a.isPrimary)).map (fun a => a.id) = [db.nextAddressId + 1]) := by
  constructor
  · have main : ∀ (l : List AddrOp) (d : Db), AddrWF d → PrimInv d →
        (∀ op ∈ l, op.stdPrimary) →
        AddrWF (applyAddrOps d l) ∧ PrimInv (applyAddrOps d l) := by
      intro l
      induction l with
      | nil => exact fun d h1 h2 _ => ⟨h1, h2⟩
      | cons op t ih =>
          intro d h1 h2 h3
          have hop := applyAddrOp_preserves d op h1 h2 (h3 op (List.mem_cons_self _ _))
          exact ih (applyAddrOp d op) hop.1 hop.2
            (fun o ho => h3 o (List.mem_cons_of_mem _ ho))
    exact (main ops db hwf hinv hops).2
  · intro cid a1 a2 hex h1 h2 hb1 hb2
    have hfst : ∀ (d : Db) (a : AddressInput), a.line2.binds = true →
        customerExists d cid = true →
        (Repo.addAddress d cid a).1 =
          setFlag (addAddressRows d cid a) cid
            (addrCount (addAddressRows d cid a) cid == 1) := by
      intro d a hb hd
      unfold Repo.addAddress
      rw [if_neg (by simp [hb]), if_pos hd]
    have hres1 := hfst db a1 hb1 hex
    have hex1 : customerExists (Repo.addAddress db cid a1).1 cid = true := by
      rw [hres1, customerExists_setFlag]
      unfold customerExists
      rw [customers_addAddressRows]
      exact hex
    have hres2 := hfst (Repo.addAddress db cid a1).1 a2 hb2 hex1
    have hnext1 : (Repo.addAddress db cid a1).1.nextAddressId = db.nextAddressId + 1 := by
      rw [hres1, nextAddressId_setFlag, nextAddressId_addAddressRows]
    rw [hres2, addrsOf_setFlag, addrsOf_addAddressRows_self, h2]
    simp only [if_true]
    rw [List.filter_append, filter_prim_map_false, List.nil_append]
    rw [List.filter_cons_of_pos (by simp [h2])]
    rw [List.filter_nil]
    simp [hnext1]

/-- Witness for C1 amended: a concrete two-operation sequence keeps the
invariant, and the double primary add leaves exactly the second row
primary. -/
theorem primary_exclusive_witness :
    (PrimInv (applyAddrOps
      ⟨[⟨1, "A", "B", "123456", none, "standard", false, 0⟩], [], 2, 1, 1⟩
      [AddrOp.add 1 ⟨"L1", JsField.null, "C", "S", "India", "1", true, none⟩,
        AddrOp.update 1 1
          ⟨none, none, none, none, none, none, some JsBool.jtrue, none⟩]) ∧
      (∀ cid (a1 a2 : AddressInput),
        customerExists ⟨[⟨1, "A", "B", "123456", none, "standard", false, 0⟩], [], 2, 1, 1⟩
          cid = true →
        a1.isPrimary = true → a2.isPrimary = true →
        a1.line2.binds = true → a2.line2.binds = true →
        ((addrsOf (Repo.addAddress (Repo.addAddress
            ⟨[⟨1, "A", "B", "123456", none, "standard", false, 0⟩], [], 2, 1, 1⟩
            cid a1).1 cid a2).1 cid).filter
            (fun a => a.isPrimary)).map (fun a => a.id) = [2])) ∧
    ((addrsOf (Repo.addAddress (Repo.addAddress
        ⟨[⟨1, "A", "B", "123456", none, "standard", false, 0⟩], [], 2, 1, 1⟩
        1 ⟨"L1", JsField.null, "C", "S", "India", "1", true, none⟩).1
        1 ⟨"L2", JsField.null, "C", "S", "India", "2", true, none⟩).1 1).filter
        (fun a => a.isPrimary)).map (fun a => a.id) = [2] := by
  refine ⟨primary_exclusive _ _ ?_ ?_ ?_, by decide⟩
  · constructor
    · simp
    · intro a ha
      simp at ha
  · intro cid
    simp [primCount, addrsOf]
  · intro op hop
    fin_cases hop
    · exact trivial
    · exact fun hcon => JsBool.noConfusion (Option.some.inj hcon)

-- ---------- Round-trip infrastructure ----------

/-- The stored row that `addAddress` inserts for a validated nested address
at a given surrogate id. -/
def mkRow (id cid : Nat) (a : AddressValue) : Address :=
  ⟨id, cid, a.line1, a.line2, a.city, a.state, a.country, a.pincode,
    a.isPrimary.getD false, jsOrDefault (some a.status) "active"⟩

/-- The rows that the sequential inserts produce, with consecutive ids. -/
def rowsFrom (start cid : Nat) : List AddressValue → List Address
  | [] => []
  | a :: t => mkRow start cid a :: rowsFrom (start + 1) cid t

/-- A stored address without its surrogate keys: what the claim compares
between the submitted and the returned addresses. -/
structure AddressContent where
  line1 : String
  line2 : Option String
  city : String
  state : String
  country : String
  pincode : String
  isPrimary : Bool
  status : String
deriving DecidableEq, Repr

/-- The content of a stored row. -/
def Address.content (a : Address) : AddressContent :=
  ⟨a.line1, a.line2, a.city, a.state, a.country, a.pincode, a.isPrimary, a.status⟩

/-- The content of a submitted (validated) address. -/
def AddressValue.content (av : AddressValue) : AddressContent :=
  ⟨av.line1, av.line2, av.city, av.state, av.country, av.pincode,
    av.isPrimary.getD false, av.status⟩

theorem rowsFrom_id_ge (cid : Nat) (l : List AddressValue) :
    ∀ s : Nat, ∀ x ∈ rowsFrom s cid l, s ≤ x.id := by
  induction l with
  | nil => intro s x hx; cases hx
  | cons a t ih =>
      intro s x hx
      rcases hx with _ | hx
      · exact le_refl _
      · have := ih (s + 1) x (by assumption)
        omega

theorem rowsFrom_pairwise_id (cid : Nat) (l : List AddressValue) :
    ∀ s : Nat, (rowsFrom s cid l).Pairwise (fun a b => a.id < b.id) := by
  induction l with
  | nil => intro s; exact List.Pairwise.nil
  | cons a t ih =>
      intro s
      refine List.Pairwise.cons ?_ (ih (s + 1))
      intro b hb
      have := rowsFrom_id_ge cid t (s + 1) b hb
      show (mkRow s cid a).id < b.id
      unfold mkRow
      simp only []
      omega

theorem rowsFrom_length (cid : Nat) (l : List AddressValue) (s : Nat) :
    (rowsFrom s cid l).length = l.length := by
  induction l generalizing s with
  | nil => rfl
  | cons a t ih => simp [rowsFrom, ih]

theorem rowsFrom_content_split (cid : Nat) (l : List AddressValue)
    (hstat : ∀ a ∈ l, a.status ≠ "") :
    ∀ s : Nat,
      (((rowsFrom s cid l).filter (fun a => a.isPrimary)).map Address.content =
        (l.filter (fun a => a.isPrimary.getD false)).map AddressValue.content) ∧
      (((rowsFrom s cid l).filter (fun a => !a.isPrimary)).map Address.content =
        (l.filter (fun a => !a.isPrimary.getD false)).map AddressValue.content) := by
  induction l with
  | nil => intro s; exact ⟨rfl, rfl⟩
  | cons a t ih =>
      intro s
      have hstat' : ∀ x ∈ t, x.status ≠ "" :=
        fun x hx => hstat x (List.mem_cons_of_mem a hx)
      have hcon : (mkRow s cid a).content = a.content := by
        unfold mkRow Address.content AddressValue.content jsOrDefault
        have := hstat a (List.mem_cons_self a t)
        simp [this]
      have hprim : (mkRow s cid a).isPrimary = a.isPrimary.getD false := rfl
      obtain ⟨ih1, ih2⟩ := ih hstat' (s + 1)
      constructor
      · show ((mkRow s cid a :: rowsFrom (s + 1) cid t).filter
            (fun a => a.isPrimary)).map Address.content = _
        by_cases hp : a.isPrimary.getD false = true <;>
          simp [List.filter_cons, hprim, hp, hcon, ih1]
      · show ((mkRow s cid a :: rowsFrom (s + 1) cid t).filter
            (fun a => !a.isPrimary)).map Address.content = _
        by_cases hp : a.isPrimary.getD false = true <;>
          simp [List.filter_cons, hprim, hp, hcon, ih2]

/-- Strict version of the hydration order. -/
def addrLt (a b : Address) : Prop :=
  primKey a < primKey b ∨ (primKey a = primKey b ∧ a.id < b.id)

instance : IsAntisymm Address addrLt :=
  ⟨fun a b h1 h2 => by
    rcases h1 with h1 | ⟨h1a, h1b⟩ <;> rcases h2 with h2 | ⟨h2a, h2b⟩ <;> omega⟩

instance : IsTotal Address addrLe :=
  ⟨fun a b => by
    unfold addrLe addrLeB
    rcases Nat.lt_trichotomy (primKey a) (primKey b) with h | h | h
    · left; simp [h]
    · rcases Nat.le_total a.id b.id with hi | hi
      · left; simp [h, hi]
      · right; simp [h, hi]
    · right; simp [h]⟩

instance : IsTrans Address addrLe :=
  ⟨fun a b c hab hbc => by
    unfold addrLe addrLeB at *
    simp only [Bool.or_eq_true, Bool.and_eq_true, decide_eq_true_eq,
      beq_iff_eq] at *
    omega⟩

theorem addrLt_of_addrLe_of_ne_id {a b : Address}
    (hle : addrLe a b) (hne : a.id ≠ b.id) : addrLt a b := by
  unfold addrLe addrLeB at hle
  unfold addrLt
  simp only [Bool.or_eq_true, Bool.and_eq_true, decide_eq_true_eq,
    beq_iff_eq] at hle
  omega

theorem sorted_lt_of_sorted_le {l : List Address}
    (hs : List.Sorted addrLe l) (hn : (l.map (fun a => a.id)).Nodup) :
    List.Sorted addrLt l := by
  have hpw : l.Pairwise (fun a b => a.id ≠ b.id) := by
    rw [List.Nodup, List.pairwise_map] at hn
    exact hn
  exact (hs.and hpw).imp (fun h => addrLt_of_addrLe_of_ne_id h.1 h.2)

theorem length_le_one_cases (l : List Address) (h : l.length ≤ 1) :
    l = [] ∨ ∃ a, l = [a] := by
  cases l with
  | nil => exact Or.inl rfl
  | cons a t =>
      cases t with
      | nil => exact Or.inr ⟨a, rfl⟩
      | cons b u => simp at h

theorem target_sorted (rows : List Address)
    (hpair : rows.Pairwise (fun a b => a.id < b.id))
    (hprim : (rows.filter (fun a => a.isPrimary)).length ≤ 1) :
    List.Sorted addrLt (rows.filter (fun a => a.isPrimary) ++
      rows.filter (fun a => !a.isPrimary)) := by
  rw [List.Sorted, List.pairwise_append]
  refine ⟨?_, ?_, ?_⟩
  · rcases length_le_one_cases _ hprim with h | ⟨a, h⟩ <;> simp [h]
  · have := hpair.filter (fun a => !a.isPrimary)
    refine this.imp_of_mem ?_
    intro a b ha hb hlt
    have hpa : a.isPrimary = false := by
      have := List.of_mem_filter ha
      simpa using this
    have hpb : b.isPrimary = false := by
      have := List.of_mem_filter hb
      simpa using this
    right
    constructor
    · simp [primKey, hpa, hpb]
    · exact hlt
  · intro a ha b hb
    have hpa : a.isPrimary = true := by
      have := List.of_mem_filter ha
      simpa using this
    have hpb : b.isPrimary = false := by
      have := List.of_mem_filter hb
      simpa using this
    left
    simp [primKey, hpa, hpb]

theorem sortAddresses_eq_split (rows : List Address)
    (hpair : rows.Pairwise (fun a b => a.id < b.id))
    (hprim : (rows.filter (fun a => a.isPrimary)).length ≤ 1) :
    sortAddresses rows =
      rows.filter (fun a => a.isPrimary) ++ rows.filter (fun a => !a.isPrimary) := by
  have hnodup : (rows.map (fun a => a.id)).Nodup := by
    rw [List.Nodup, List.pairwise_map]
    exact hpair.imp (fun h => Nat.ne_of_lt h)
  have hperm1 : (sortAddresses rows).Perm rows := List.perm_insertionSort addrLe rows
  have hperm2 : (rows.filter (fun a => a.isPrimary) ++
      rows.filter (fun a => !a.isPrimary)).Perm rows :=
    List.filter_append_perm _ rows
  have hsorted1 : List.Sorted addrLt (sortAddresses rows) := by
    refine sorted_lt_of_sorted_le (List.sorted_insertionSort addrLe rows) ?_
    have := hperm1.map (fun a => a.id)
    exact this.nodup_iff.mpr hnodup
  have hsorted2 := target_sorted rows hpair hprim
  exact List.eq_of_perm_of_sorted (hperm1.trans hperm2.symm) hsorted1 hsorted2

theorem map_setFalse_of_no_prim (l : List Address)
    (h : ∀ x ∈ l, x.isPrimary = false) :
    l.map (fun x => { x with isPrimary := false }) = l := by
  have hid : ∀ x ∈ l, (fun x : Address => { x with isPrimary := false }) x =
      (fun x : Address => x) x := by
    intro x hx
    have := h x hx
    cases x
    simp_all
  rw [List.map_congr_left hid]
  exact List.map_id' l

theorem addAddress_fst (db : Db) (cid : Nat) (a : AddressInput)
    (hb : a.line2.binds = true) (hex : customerExists db cid = true) :
    (Repo.addAddress db cid a).1 =
      setFlag (addAddressRows db cid a) cid
        (addrCount (addAddressRows db cid a) cid == 1) := by
  unfold Repo.addAddress
  rw [if_neg (by simp [hb]), if_pos hex]

theorem addAddress_ok (db : Db) (cid : Nat) (a : AddressInput)
    (hb : a.line2.binds = true) (hex : customerExists db cid = true) :
    (Repo.addAddress db cid a).2 =
      .ok (Repo.getCustomerById (Repo.addAddress db cid a).1 cid) := by
  unfold Repo.addAddress
  rw [if_neg (by simp [hb]), if_pos hex]

theorem customerExists_addAddress (db : Db) (cid : Nat) (a : AddressInput)
    (hb : a.line2.binds = true) (hex : customerExists db cid = true) :
    customerExists (Repo.addAddress db cid a).1 cid = true := by
  rw [addAddress_fst db cid a hb hex, customerExists_setFlag]
  unfold customerExists
  rw [customers_addAddressRows]
  exact hex

theorem binds_jsFieldOf (o : Option String) (h : o.isSome = true) :
    (jsFieldOf o).binds = true := by
  rcases o with _ | s
  · simp at h
  · rfl

theorem binds_toAddressInput (a : AddressValue) (h : a.line2.isSome = true) :
    (toAddressInput a).line2.binds = true :=
  binds_jsFieldOf a.line2 h

theorem toCol_toAddressInput (a : AddressValue) :
    (toAddressInput a).line2.toCol = a.line2 := by
  show (jsFieldOf a.line2).toCol = a.line2
  rcases a.line2 with _ | s <;> rfl

theorem insertAll_spec (l : List AddressValue) (db : Db) (cid : Nat)
    (hex : customerExists db cid = true)
    (hwf : AddrWF db)
    (hprim : ((addrsOf db cid).filter (fun a => a.isPrimary)).length +
      (l.filter (fun a => a.isPrimary.getD false)).length ≤ 1)
    (hl2 : ∀ a ∈ l, a.line2.isSome = true) :
    addrsOf (insertAll db cid l).1 cid =
        addrsOf db cid ++ rowsFrom db.nextAddressId cid l ∧
      AddrWF (insertAll db cid l).1 ∧
      customerExists (insertAll db cid l).1 cid = true ∧
      (insertAll db cid l).2 = none := by
  induction l generalizing db with
  | nil =>
      refine ⟨?_, hwf, hex, rfl⟩
      show addrsOf db cid = addrsOf db cid ++ rowsFrom db.nextAddressId cid []
      simp [rowsFrom]
  | cons a t ih =>
      have hba : (toAddressInput a).line2.binds = true :=
        binds_toAddressInput a (hl2 a (List.mem_cons_self a t))
      have hok := addAddress_ok db cid (toAddressInput a) hba hex
      have hstep : insertAll db cid (a :: t) =
          insertAll (Repo.addAddress db cid (toAddressInput a)).1 cid t := by
        show (match (Repo.addAddress db cid (toAddressInput a)).2 with
          | .ok _ => insertAll (Repo.addAddress db cid (toAddressInput a)).1 cid t
          | .error m => ((Repo.addAddress db cid (toAddressInput a)).1, some m)) = _
        rw [hok]
      have hfst := addAddress_fst db cid (toAddressInput a) hba hex
      have hex' := customerExists_addAddress db cid (toAddressInput a) hba hex
      have hwf' : AddrWF (Repo.addAddress db cid (toAddressInput a)).1 := by
        rw [hfst]
        exact addrWF_setFlag _ _ _ (addrWF_addAddressRows db cid (toAddressInput a) hwf)
      have hrows : addrsOf (Repo.addAddress db cid (toAddressInput a)).1 cid =
          addrsOf db cid ++ [mkRow db.nextAddressId cid a] := by
        rw [hfst, addrsOf_setFlag, addrsOf_addAddressRows_self, toCol_toAddressInput]
        by_cases hp : (toAddressInput a).isPrimary = true
        · rw [if_pos hp]
          have hp' : a.isPrimary.getD false = true := hp
          have hge : ((a :: t).filter
              (fun x => x.isPrimary.getD false)).length ≥ 1 := by
            have hcons : ((a :: t).filter (fun x => x.isPrimary.getD false)) =
                a :: (t.filter (fun x => x.isPrimary.getD false)) := by
              simp [List.filter_cons, hp']
            rw [hcons]
            simp
          have hzero : ((addrsOf db cid).filter (fun x => x.isPrimary)).length = 0 := by
            omega
          rw [List.length_eq_zero] at hzero
          have hall : ∀ x ∈ addrsOf db cid, x.isPrimary = false := by
            intro x hx
            by_contra hcon
            have hxt : x.isPrimary = true := by
              cases hxp : x.isPrimary
              · exact absurd hxp hcon
              · rfl
            have hmem : x ∈ (addrsOf db cid).filter (fun x => x.isPrimary) :=
              List.mem_filter.mpr ⟨hx, hxt⟩
            rw [hzero] at hmem
            exact absurd hmem (List.not_mem_nil x)
          rw [map_setFalse_of_no_prim _ hall]
          rfl
        · rw [if_neg hp]
          rfl
      have hnext : (Repo.addAddress db cid (toAddressInput a)).1.nextAddressId =
          db.nextAddressId + 1 := by
        rw [hfst, nextAddressId_setFlag, nextAddressId_addAddressRows]
      have hprim' : ((addrsOf (Repo.addAddress db cid (toAddressInput a)).1 cid).filter
            (fun x => x.isPrimary)).length +
          (t.filter (fun x => x.isPrimary.getD false)).length ≤ 1 := by
        rw [hrows, List.filter_append]
        rw [List.length_append]
        have hhead : ((a :: t).filter (fun x => x.isPrimary.getD false)).length =
            (if a.isPrimary.getD false = true then 1 else 0) +
              (t.filter (fun x => x.isPrimary.getD false)).length := by
          by_cases hp : a.isPrimary.getD false = true <;>
            simp [List.filter_cons, hp, Nat.add_comm]
        have hrowp : (([mkRow db.nextAddressId cid a]).filter
            (fun x => x.isPrimary)).length =
            (if a.isPrimary.getD false = true then 1 else 0) := by
          by_cases hp : a.isPrimary.getD false = true <;>
            simp [List.filter_cons, mkRow, hp]
        rw [hrowp]
        rw [hhead] at hprim
        omega
      obtain ⟨ih1, ih2, ih3, ih4⟩ := ih (Repo.addAddress db cid (toAddressInput a)).1
        hex' hwf' hprim' (fun x hx => hl2 x (List.mem_cons_of_mem a hx))
      rw [hstep]
      refine ⟨?_, ih2, ih3, ih4⟩
      rw [ih1, hrows, hnext]
      rw [List.append_assoc]
      rfl

theorem find?_append_right_single (l : List Customer) (c : Customer) (cid : Nat)
    (h : ∀ x ∈ l, x.id ≠ cid) (hc : c.id = cid) :
    (l ++ [c]).find? (fun x => x.id == cid) = some c := by
  induction l with
  | nil => simp [List.find?, hc]
  | cons a t ih =>
      have ha := h a (List.mem_cons_self a t)
      rw [List.cons_append]
      rw [List.find?_cons_of_neg _ (by simpa using ha)]
      exact ih (fun x hx => h x (List.mem_cons_of_mem a hx))

theorem createCustomer_repo_spec (db : Db) (d : CustomerData)
    (hemail : d.email.binds = true)
    (hphone : Repo.existsByPhone db d.phone = false)
    (hfreshC : ∀ c ∈ db.customers, c.id ≠ db.nextCustomerId)
    (hfreshA : ∀ a ∈ db.addresses, a.customerId ≠ db.nextCustomerId) :
    Repo.createCustomer db d =
      ({ db with
          customers := db.customers ++
            [⟨db.nextCustomerId, d.firstName, d.lastName, d.phone, d.email.toCol,
              d.accountType, d.hasOnlyOneAddress, db.clock⟩],
          nextCustomerId := db.nextCustomerId + 1,
          clock := db.clock + 1 },
        .ok (some ⟨⟨db.nextCustomerId, d.firstName, d.lastName, d.phone,
          d.email.toCol, d.accountType, d.hasOnlyOneAddress, db.clock⟩, []⟩)) := by
  unfold Repo.createCustomer
  rw [if_neg (by simp [hemail]), if_neg (by rw [hphone]; exact Bool.false_ne_true)]
  refine Prod.ext rfl ?_
  show Except.ok (Repo.getCustomerById _ db.nextCustomerId) = _
  refine congrArg Except.ok ?_
  show Repo.getCustomerById _ db.nextCustomerId = _
  unfold Repo.getCustomerById findCustomer
  rw [show ({ db with
      customers := db.customers ++
        [⟨db.nextCustomerId, d.firstName, d.lastName, d.phone, d.email.toCol,
          d.accountType, d.hasOnlyOneAddress, db.clock⟩],
      nextCustomerId := db.nextCustomerId + 1,
      clock := db.clock + 1 } : Db).customers =
    db.customers ++
      [⟨db.nextCustomerId, d.firstName, d.lastName, d.phone, d.email.toCol,
        d.accountType, d.hasOnlyOneAddress, db.clock⟩] from rfl]
  rw [find?_append_right_single db.customers _ db.nextCustomerId hfreshC rfl]
  have haddr : addrsOf { db with
      customers := db.customers ++
        [⟨db.nextCustomerId, d.firstName, d.lastName, d.phone, d.email.toCol,
          d.accountType, d.hasOnlyOneAddress, db.clock⟩],
      nextCustomerId := db.nextCustomerId + 1,
      clock := db.clock + 1 } db.nextCustomerId = [] := by
    unfold addrsOf
    rw [List.filter_eq_nil_iff]
    intro a ha
    have := hfreshA a ha
    simpa using this
  rw [haddr]
  rfl

theorem validateAddress_nil_status (r : AddressRaw)
    (h : (validateAddress r).1 = []) : (validateAddress r).2.status ≠ "" := by
  have hstat : (validateAddress r).2.status = r.status.getD "active" := rfl
  rw [hstat]
  rcases hs : r.status with _ | s
  · simp
  · simp only [Option.getD_some]
    intro hcon
    subst hcon
    unfold validateAddress at h
    rw [hs] at h
    simp at h

theorem validateCreate_ok_status (p : CreateInput) (v : CreateValue)
    (l : List AddressValue) (hv : validateCreate p = .ok v)
    (hl : v.addresses = some l) : ∀ a ∈ l, a.status ≠ "" := by
  unfold validateCreate at hv
  by_cases hE : (createErrors p).isEmpty = true
  · rw [if_pos hE] at hv
    injection hv with hv
    subst hv
    have hav : addressesValue p = some l := hl
    rcases hpa : p.addresses with _ | raw
    · unfold addressesValue at hav
      rw [hpa] at hav
      exact absurd hav (by simp)
    · unfold addressesValue at hav
      rw [hpa] at hav
      injection hav with hav
      intro a ha
      rw [← hav, List.map_map] at ha
      obtain ⟨r, hr, hra⟩ := List.mem_map.mp ha
      have hnil : (validateAddress r).1 = [] := by
        rw [List.isEmpty_iff] at hE
        unfold createErrors at hE
        simp only [List.append_eq_nil] at hE
        have hflat := hE.2
        unfold addressesErrors at hflat
        rw [hpa] at hflat
        rw [List.flatten_eq_nil_iff] at hflat
        refine hflat (validateAddress r).1 ?_
        rw [List.map_map]
        exact List.mem_map_of_mem _ hr
      have hres := validateAddress_nil_status r hnil
      rw [← hra]
      exact hres
  · rw [if_neg hE] at hv
    exact absurd hv (by simp)

theorem finishCreate_some (d1 : Db) (c : HydratedCustomer) (l : List AddressValue)
    (hlen : l.length ≠ 0) (cid : Nat) (hcid : c.customer.id = cid)
    (hins : (insertAll d1 cid l).2 = none) :
    finishCreate (d1, .ok (some c)) (some l) =
      ((insertAll d1 cid l).1,
        .ok (Repo.getCustomerById (insertAll d1 cid l).1 cid)) := by
  subst hcid
  simp only [finishCreate]
  rw [if_pos hlen]
  rw [hins]

/-- C8 as stated is falsified: a creation payload that passes validation
but carries no `email` key — Joi leaves the absent optional key absent, so
binding `@email` throws `RangeError: Missing named parameter "email"` —
makes `createCustomer` fail with a 500 carrying that message, the store
unchanged, instead of storing the customer and round-tripping its nested
address. -/
theorem createCustomer_roundtrip_counterexample :
    validateCreate ⟨some "John", some "Doe", some "1234567", none, none,
        some [⟨some "12 Main St", none, some "Pune", some "MH", none,
          some "411001", some true, none⟩]⟩ =
      .ok ⟨"John", "Doe", "1234567", none, "standard",
        some [⟨"12 Main St", none, "Pune", "MH", "India", "411001", some true,
          "active"⟩]⟩ ∧
    (Usecase.createCustomer ⟨[], [], 1, 1, 0⟩
        ⟨some "John", some "Doe", some "1234567", none, none,
          some [⟨some "12 Main St", none, some "Pune", some "MH", none,
            some "411001", some true, none⟩]⟩).2 =
      .error ⟨500, "Missing named parameter \"email\"", []⟩ ∧
    (Usecase.createCustomer ⟨[], [], 1, 1, 0⟩
        ⟨some "John", some "Doe", some "1234567", none, none,
          some [⟨some "12 Main St", none, some "Pune", some "MH", none,
            some "411001", some true, none⟩]⟩).1 =
      (⟨[], [], 1, 1, 0⟩ : Db) := by
  refine ⟨by decide, by decide, by decide⟩

/-- C8 amended: for every creation payload that passes validation, supplies
every optional key the inserts bind (the `email` key, and the `line2` key
of each nested address), whose validated value carries a nonempty list of
nested addresses with at most one marked primary, and whose phone and
(truthy) email are not yet stored — against a store whose address ids are
well-formed and whose next customer id is fresh — `createCustomer`
succeeds, fetching the new id returns the same hydrated customer, the
returned addresses' contents are exactly the submitted contents with the
primary one first and the rest in submission (id) order, and the returned
list is sorted primary-first then by id ascending. -/
theorem createCustomer_roundtrip (db : Db) (p : CreateInput) (v : CreateValue)
    (l : List AddressValue)
    (hv : validateCreate p = .ok v)
    (hl : v.addresses = some l)
    (hl0 : l ≠ [])
    (hekey : v.email.isSome = true)
    (hphone : Repo.existsByPhone db v.phone = false)
    (hemail : (emailTruthy v.email && Repo.existsByEmail db v.email) = false)
    (hprim : primariesRequested v ≤ 1)
    (hl2 : ∀ a ∈ l, a.line2.isSome = true)
    (hwf : AddrWF db)
    (hfreshC : ∀ c ∈ db.customers, c.id ≠ db.nextCustomerId)
    (hfreshA : ∀ a ∈ db.addresses, a.customerId ≠ db.nextCustomerId) :
    ∃ h : HydratedCustomer,
      (Usecase.createCustomer db p).2 = .ok (some h) ∧
      Repo.getCustomerById (Usecase.createCustomer db p).1 db.nextCustomerId =
        some h ∧
      h.addresses.map Address.content =
        (l.filter (fun a => a.isPrimary.getD false)).map AddressValue.content ++
          (l.filter (fun a => !a.isPrimary.getD false)).map AddressValue.content ∧
      List.Sorted addrLt h.addresses := by
  have hnp : ¬ primariesRequested v > 1 := by omega
  have hlen : l.length ≠ 0 := fun hcon => hl0 (List.length_eq_zero.mp hcon)
  have hpr : primariesRequested v =
      (l.filter (fun a => a.isPrimary.getD false)).length := by
    unfold primariesRequested
    rw [hl]
  rw [hpr] at hprim
  set db1 : Db :=
    { db with
      customers := db.customers ++
        [⟨db.nextCustomerId, v.firstName, v.lastName, v.phone,
          (jsFieldOf v.email).toCol, v.accountType, l.length == 1, db.clock⟩],
      nextCustomerId := db.nextCustomerId + 1,
      clock := db.clock + 1 } with hdb1
  set db2 : Db := (insertAll db1 db.nextCustomerId l).1 with hdb2
  have hrepo := createCustomer_repo_spec db
    ⟨v.firstName, v.lastName, v.phone, jsFieldOf v.email, v.accountType,
      l.length == 1⟩
    (binds_jsFieldOf v.email hekey) hphone hfreshC hfreshA
  have h1ex : customerExists db1 db.nextCustomerId = true := by
    show (db.customers ++
        [(⟨db.nextCustomerId, v.firstName, v.lastName, v.phone,
          (jsFieldOf v.email).toCol, v.accountType, l.length == 1,
          db.clock⟩ : Customer)]).any
      (fun c => c.id == db.nextCustomerId) = true
    rw [List.any_append]
    simp
  have h1wf : AddrWF db1 := hwf
  have h1addr : addrsOf db1 db.nextCustomerId = [] := by
    show db.addresses.filter (fun a => a.customerId == db.nextCustomerId) = []
    rw [List.filter_eq_nil_iff]
    intro a ha
    simpa using hfreshA a ha
  have hprim1 : ((addrsOf db1 db.nextCustomerId).filter
        (fun a => a.isPrimary)).length +
      (l.filter (fun a => a.isPrimary.getD false)).length ≤ 1 := by
    rw [h1addr]
    simpa using hprim
  obtain ⟨hrows, hwf2, hex2, hins⟩ :=
    insertAll_spec l db1 db.nextCustomerId h1ex h1wf hprim1 hl2
  rw [h1addr, List.nil_append] at hrows
  have hrun : Usecase.createCustomer db p =
      (db2, .ok (Repo.getCustomerById db2 db.nextCustomerId)) := by
    unfold Usecase.createCustomer
    simp only [hv]
    rw [if_neg (by rw [hphone]; exact Bool.false_ne_true)]
    rw [if_neg (by rw [hemail]; exact Bool.false_ne_true)]
    rw [if_neg hnp]
    simp only [hl]
    rw [hrepo]
    exact finishCreate_some db1
      ⟨⟨db.nextCustomerId, v.firstName, v.lastName, v.phone,
        (jsFieldOf v.email).toCol, v.accountType, l.length == 1, db.clock⟩, []⟩
      l hlen db.nextCustomerId rfl hins
  have hstat := validateCreate_ok_status p v l hv hl
  have hpair := rowsFrom_pairwise_id db.nextCustomerId l db1.nextAddressId
  have hsplit := rowsFrom_content_split db.nextCustomerId l hstat db1.nextAddressId
  have hflen : ((rowsFrom db1.nextAddressId db.nextCustomerId l).filter
        (fun a => a.isPrimary)).length =
      (l.filter (fun a => a.isPrimary.getD false)).length := by
    have := congrArg List.length hsplit.1
    simpa using this
  have hprimrows : ((rowsFrom db1.nextAddressId db.nextCustomerId l).filter
      (fun a => a.isPrimary)).length ≤ 1 := by
    rw [hflen]
    exact hprim
  have hsort := sortAddresses_eq_split _ hpair hprimrows
  rw [customerExists_iff_find?] at hex2
  obtain ⟨c2, hc2⟩ := Option.isSome_iff_exists.mp hex2
  have hget : Repo.getCustomerById db2 db.nextCustomerId =
      some ⟨c2, sortAddresses (addrsOf db2 db.nextCustomerId)⟩ := by
    unfold Repo.getCustomerById
    rw [hc2]
  refine ⟨⟨c2, sortAddresses (addrsOf db2 db.nextCustomerId)⟩, ?_, ?_, ?_, ?_⟩
  · rw [hrun]
    exact congrArg Except.ok hget
  · rw [hrun]
    exact hget
  · show (sortAddresses (addrsOf db2 db.nextCustomerId)).map Address.content = _
    rw [hrows, hsort, List.map_append, hsplit.1, hsplit.2]
  · show List.Sorted addrLt (sortAddresses (addrsOf db2 db.nextCustomerId))
    rw [hrows, hsort]
    exact target_sorted _ hpair hprimrows

/-- Witness for C8 amended: a fresh store and a minimal valid payload
carrying an `email` key and one primary nested address with a `line2`
key. -/
theorem createCustomer_roundtrip_witness :
    ∃ h : HydratedCustomer,
      (Usecase.createCustomer ⟨[], [], 1, 1, 0⟩
          ⟨some "John", some "Doe", some "1234567", some "", none,
            some [⟨some "12 Main St", some "Apt 4", some "Pune", some "MH",
              none, some "411001", some true, none⟩]⟩).2 = .ok (some h) ∧
      Repo.getCustomerById
        (Usecase.createCustomer ⟨[], [], 1, 1, 0⟩
          ⟨some "John", some "Doe", some "1234567", some "", none,
            some [⟨some "12 Main St", some "Apt 4", some "Pune", some "MH",
              none, some "411001", some true, none⟩]⟩).1 1 = some h ∧
      h.addresses.map Address.content =
        (([⟨"12 Main St", some "Apt 4", "Pune", "MH", "India", "411001",
            some true, "active"⟩] : List AddressValue).filter
          (fun a => a.isPrimary.getD false)).map AddressValue.content ++
        (([⟨"12 Main St", some "Apt 4", "Pune", "MH", "India", "411001",
            some true, "active"⟩] : List AddressValue).filter
          (fun a => !a.isPrimary.getD false)).map AddressValue.content ∧
      List.Sorted addrLt h.addresses :=
  createCustomer_roundtrip ⟨[], [], 1, 1, 0⟩
    ⟨some "John", some "Doe", some "1234567", some "", none,
      some [⟨some "12 Main St", some "Apt 4", some "Pune", some "MH", none,
        some "411001", some true, none⟩]⟩
    ⟨"John", "Doe", "1234567", some "", "standard",
      some [⟨"12 Main St", some "Apt 4", "Pune", "MH", "India", "411001",
        some true, "active"⟩]⟩
    [⟨"12 Main St", some "Apt 4", "Pune", "MH", "India", "411001", some true,
      "active"⟩]
    (by decide) (by decide) (by decide) (by decide) (by decide) (by decide)
    (by decide) (by decide)
    ⟨List.nodup_nil, fun a ha => absurd ha (List.not_mem_nil a)⟩
    (fun c hc => absurd hc (List.not_mem_nil c))
    (fun a ha => absurd ha (List.not_mem_nil a))
